import Mathlib

/-!
# go-ipc-client: length-prefixed framing and dial retry

A shallow embedding of the Go IPC client example of daemon-slayer
(`client_all.go`, `connect_unix.go`, `connect_windows.go`, `main.go`).

Conventions of the embedding:
* a Go `byte` is a natural number below 256, a `[]byte` or `string` is a list of bytes;
* a Go `int` is an integer (64-bit range), `uint32(x)` is `x % 2^32`;
* a Go `error` value is a `GoError`, `nil` is `none`;
* a Go function returning `(v, err)` returns a pair.
-/

namespace GoIpc

/-- A Go byte. -/
abbrev Byte := Nat

/-- The error values that reach the client: the sentinel errors of package `io`,
errors of the transport (package `net`, `winio`) identified by their message, and
errors of the payload codec (package `encoding/json`). -/
inductive GoError where
  | EOF
  | ErrUnexpectedEOF
  | ErrShortWrite
  | net (msg : String)
  | json (msg : String)
deriving DecidableEq, Repr

/-- The text returned by `err.Error()`. -/
def GoError.Error : GoError → String
  | .EOF => "EOF"
  | .ErrUnexpectedEOF => "unexpected EOF"
  | .ErrShortWrite => "short write"
  | .net msg => msg
  | .json msg => msg

/-- Errors raised by the payload codec. -/
def GoError.isCodec : GoError → Bool
  | .json _ => true
  | _ => false

/-- Errors raised by the byte stream itself. -/
def GoError.isTransport : GoError → Bool
  | .EOF => true
  | .ErrShortWrite => true
  | .net _ => true
  | _ => false

/-! ## Length codec (`client_all.go`, lines 35-53) -/

/-- Conversion `uint32(x)` of a Go `int`. -/
def toUint32 (x : Int) : Nat := (x % 2 ^ 32).toNat

/-- Conversion `byte(x)` of an unsigned value. -/
def toByte (x : Nat) : Byte := x % 256

/-- `binary.BigEndian.PutUint32(b, v)` on a 4-byte slice. -/
def putUint32 (v : Nat) : List Byte :=
  [toByte (v >>> 24), toByte (v >>> 16), toByte (v >>> 8), toByte v]

/-- `binary.BigEndian.Uint32(b)` on a 4-byte slice. -/
def uint32Of (b0 b1 b2 b3 : Byte) : Nat :=
  (toByte b3 ||| toByte b2 <<< 8 ||| toByte b1 <<< 16 ||| toByte b0 <<< 24) % 2 ^ 32

/-- `intToBytes`: a fresh 4-byte slice holding `uint32(mLen)` in big-endian order. -/
def intToBytes (mLen : Int) : List Byte :=
  putUint32 (toUint32 mLen)

/-- `bytesToInt`: `binary.Read` of one big-endian `uint32` from a reader over `b`.
`binary.Read` fills a 4-byte scratch slice with `io.ReadFull`, which reports `io.EOF` on an
empty reader and `io.ErrUnexpectedEOF` on a reader with fewer than 4 bytes. -/
def bytesToInt (b : List Byte) : Int × Option GoError :=
  match b with
  | [] => (0, some .EOF)
  | b0 :: b1 :: b2 :: b3 :: _ => (Int.ofNat (uint32Of b0 b1 b2 b3), none)
  | _ => (0, some .ErrUnexpectedEOF)

/-! ## Transport (`net.Conn`)

The connection is the external byte stream the client is handed by the dialer. Its inbound
side is the sequence of chunks in which the peer's bytes become available to successive
`Read` calls, followed by the error reported once the stream is exhausted (`io.EOF` when the
peer has closed). Its outbound side accepts every byte, or accepts a given number of further
bytes and then fails. Every `Read` and `Write` call is logged. -/

/-- A call made on the connection. -/
inductive ConnOp where
  | read (bufLen : Nat)
  | write (p : List Byte)
deriving DecidableEq, Repr

/-- State of a connection. -/
structure Conn where
  /-- chunks delivered to the next `Read` calls, in order -/
  inbound : List (List Byte)
  /-- error of a `Read` that finds the inbound stream exhausted -/
  atEnd : GoError
  /-- bytes the transport has accepted -/
  outbound : List Byte
  /-- `none`: every write succeeds; `some (k, e)`: `k` more bytes are accepted, then `e` -/
  writeLimit : Option (Nat × GoError)
  /-- log of the calls made so far -/
  ops : List ConnOp
deriving DecidableEq, Repr

/-- The call `conn.Read(buf)`: returns the connection, the contents of `buf` after the call,
the count `n` and the error. A read into an empty buffer returns `(0, nil)`; otherwise the read
takes what the head chunk offers, at most `len(buf)` bytes, and leaves the rest of the buffer
as it was. -/
def Conn.Read (c : Conn) (buf : List Byte) : Conn × List Byte × Nat × Option GoError :=
  let c := { c with ops := c.ops ++ [ConnOp.read buf.length] }
  if buf.length = 0 then (c, buf, 0, none)
  else
    match c.inbound with
    | [] => (c, buf, 0, some c.atEnd)
    | chunk :: rest =>
      let n := min buf.length chunk.length
      ({ c with inbound := if chunk.length ≤ buf.length then rest else chunk.drop n :: rest },
        chunk.take n ++ buf.drop n, n, none)

/-- The call `conn.Write(p)`: returns the connection, the count `n` and the error. -/
def Conn.Write (c : Conn) (p : List Byte) : Conn × Nat × Option GoError :=
  let c := { c with ops := c.ops ++ [ConnOp.write p] }
  match c.writeLimit with
  | none => ({ c with outbound := c.outbound ++ p }, p.length, none)
  | some (k, e) =>
    if p.length ≤ k then
      ({ c with outbound := c.outbound ++ p, writeLimit := some (k - p.length, e) },
        p.length, none)
    else
      ({ c with outbound := c.outbound ++ p.take k, writeLimit := some (0, e) }, k, some e)

/-! ## Buffered writer (`bufio.Writer`) -/

/-- State of a `bufio.Writer`: the buffered bytes `buf[0:n]`, the sticky error and the
underlying connection. -/
structure Writer where
  buf : List Byte
  err : Option GoError
  wr : Conn
deriving DecidableEq, Repr

/-- Buffer size of `bufio.NewWriter`. -/
def defaultBufSize : Nat := 4096

/-- The constructor `bufio.NewWriter(conn)`. -/
def NewWriter (conn : Conn) : Writer := { buf := [], err := none, wr := conn }

/-- Unused bytes of the buffer. -/
def Writer.Available (b : Writer) : Nat := defaultBufSize - b.buf.length

/-- Bytes written into the buffer. -/
def Writer.Buffered (b : Writer) : Nat := b.buf.length

/-- The method `Flush`: writes the buffered bytes to the connection; a short write without
error becomes `io.ErrShortWrite`; on error the unwritten bytes stay buffered and the error
sticks. -/
def Writer.Flush (b : Writer) : Writer × Option GoError :=
  match b.err with
  | some e => (b, some e)
  | none =>
    if b.buf.length = 0 then (b, none)
    else
      let r := b.wr.Write b.buf
      let err := if r.2.1 < b.buf.length ∧ r.2.2 = none then some GoError.ErrShortWrite else r.2.2
      match err with
      | some e => ({ buf := b.buf.drop r.2.1, err := some e, wr := r.1 }, some e)
      | none => ({ buf := [], err := none, wr := r.1 }, none)

/-- Progress measure of the loop of `Writer.Write`. -/
def Writer.loopMeasure (b : Writer) (p : List Byte) : Nat :=
  if b.err ≠ none then 0
  else if p.length ≤ b.Available then 1
  else if b.Buffered = 0 then 2
  else 3

/-- The loop of `Writer.Write`: while `p` does not fit in the buffer and no error has
occurred, either write `p` directly (empty buffer) or fill the buffer and flush it. Returns
the writer, the rest of `p` and the count. -/
def Writer.writeLoop (b : Writer) (p : List Byte) (nn : Nat) : Writer × List Byte × Nat :=
  if p.length > b.Available ∧ b.err = none then
    if b.Buffered = 0 then
      let r := b.wr.Write p
      Writer.writeLoop { b with wr := r.1, err := r.2.2 } (p.drop r.2.1) (nn + r.2.1)
    else
      let n := min b.Available p.length
      let b1 := (Writer.Flush { b with buf := b.buf ++ p.take n }).1
      Writer.writeLoop b1 (p.drop n) (nn + n)
  else (b, p, nn)
termination_by b.loopMeasure p
decreasing_by
  · rename_i h hb
    obtain ⟨hp, he⟩ := h
    have hR : b.loopMeasure p = 2 := by
      unfold Writer.loopMeasure
      rw [if_neg (by simp [he]), if_neg (by omega), if_pos hb]
    have hW : (b.wr.Write p).2.2 = none → (b.wr.Write p).2.1 = p.length := by
      unfold Conn.Write
      rcases b.wr.writeLimit with _ | ⟨k, e⟩
      · simp
      · by_cases hk : p.length ≤ k <;> simp [hk]
    rw [hR]
    unfold Writer.loopMeasure
    by_cases hn : (b.wr.Write p).2.2 = none
    · simp [hn, hW hn]
    · simp [hn]
  · rename_i h hb
    obtain ⟨hp, he⟩ := h
    have hR : b.loopMeasure p = 3 := by
      unfold Writer.loopMeasure
      rw [if_neg (by simp [he]), if_neg (by omega), if_neg hb]
    have hF : ∀ w : Writer, w.Flush.1.err ≠ none ∨ w.Flush.1.buf.length = 0 := by
      intro w
      unfold Writer.Flush
      rcases hwe : w.err with _ | e
      · by_cases hl : w.buf.length = 0
        · simp [hl]
        · simp only [hl, if_false]
          split <;> simp
      · simp [hwe]
    rw [hR]
    unfold Writer.loopMeasure
    rcases hF { buf := b.buf ++ List.take (b.Available ⊓ p.length) p, err := b.err, wr := b.wr }
      with h1 | h1
    · rw [if_pos h1]
      omega
    · split
      · omega
      · split
        · omega
        · rw [if_pos (show Writer.Buffered _ = 0 from h1)]
          omega

/-- The method `Write` of `bufio.Writer`. -/
def Writer.Write (b : Writer) (p : List Byte) : Writer × Nat × Option GoError :=
  let r := b.writeLoop p 0
  match r.1.err with
  | some e => (r.1, r.2.2, some e)
  | none =>
    let n := min r.1.Available r.2.1.length
    ({ r.1 with buf := r.1.buf ++ r.2.1.take n }, r.2.2 + n, none)

/-! ## Client (`client_all.go`) -/

/-- The payload codec the client is instantiated with: `json.Marshal` on the request type,
`json.Unmarshal` into a response variable, and the zero value of the response type. -/
structure Codec (Req Res : Type) where
  Marshal : Req → List Byte × Option GoError
  Unmarshal : List Byte → Res → Res × Option GoError
  zero : Res

/-- The struct `Client`; `conn` is `none` while the interface value is nil; `retryTimer` is a
`time.Duration`, a count of nanoseconds. -/
structure Client where
  Name : String
  conn : Option Conn
  retryTimer : Int
deriving DecidableEq, Repr

/-- Lines 91-104 of `write`: a new buffered writer on the connection, the length prefix, the
payload, and a flush. Returns the writer as it is when `write` returns, and the error. -/
def writeFrame (conn : Conn) (data : List Byte) : Writer × Option GoError :=
  let writer := NewWriter conn
  match writer.Write (intToBytes (Int.ofNat data.length)) with
  | (writer, _, some err) => (writer, some err)
  | (writer, _, none) =>
    match writer.Write data with
    | (writer, _, some err) => (writer, some err)
    | (writer, _, none) => writer.Flush

/-- The method `write`. The result is `none` when the call panics on a nil connection. -/
def Client.write {Req Res : Type} (codec : Codec Req Res) (cc : Client) (message : Req) :
    Option (Client × Option GoError) :=
  match codec.Marshal message with
  | (_, some err) => some (cc, some err)
  | (data, none) =>
    match cc.conn with
    | none => none
    | some conn =>
      let r := writeFrame conn data
      some ({ cc with conn := some r.1.wr }, r.2)

/-- The method `read`. The result is `none` when the call panics on a nil connection. -/
def Client.read {Req Res : Type} (codec : Codec Req Res) (cc : Client) :
    Option (Client × Res × Option GoError) :=
  match cc.conn with
  | none => none
  | some conn =>
    let bLen := List.replicate 4 0
    let res := codec.zero
    match conn.Read bLen with
    | (conn, _, _, some err) => some ({ cc with conn := some conn }, res, some err)
    | (conn, bLen, _, none) =>
      match bytesToInt bLen with
      | (_, some err) => some ({ cc with conn := some conn }, res, some err)
      | (mLen, none) =>
        let message := List.replicate mLen.toNat 0
        match conn.Read message with
        | (conn, _, _, some err) => some ({ cc with conn := some conn }, res, some err)
        | (conn, message, _, none) =>
          let r := codec.Unmarshal message res
          some ({ cc with conn := some conn }, r.1, r.2)

/-- The method `Send`. -/
def Client.Send {Req Res : Type} (codec : Codec Req Res) (cc : Client) (request : Req) :
    Option (Client × Res × Option GoError) :=
  match cc.write codec request with
  | none => none
  | some (cc, some err) => some (cc, codec.zero, some err)
  | some (cc, none) => cc.read codec

/-- A logged call that is a `Read`. -/
def ConnOp.isRead : ConnOp → Bool
  | .read _ => true
  | .write _ => false

/-- Number of `Read` calls made on the connection so far. -/
def Conn.readCount (c : Conn) : Nat := (c.ops.filter ConnOp.isRead).length

/-- The inbound side of `c'` is that of `c`, and no `Read` call separates them. -/
def Conn.SameInbound (c c' : Conn) : Prop :=
  c'.inbound = c.inbound ∧ c'.atEnd = c.atEnd ∧ c'.readCount = c.readCount

/-- The 4-byte big-endian unsigned encoding of `n`, as the wire format words it: the most
significant byte first. -/
def specBigEndian32 (n : Nat) : List Byte :=
  [n / 2 ^ 24 % 256, n / 2 ^ 16 % 256, n / 2 ^ 8 % 256, n % 256]

/-! ## Dialing (`connect_unix.go`, `connect_windows.go`, `StartClient`)

The connect primitive (`net.Dial`, `winio.DialPipe`) is external. A run of the dial loop is
taken over a script: the outcomes of the successive connect attempts, in order. The loop has no
bound of its own, so a run over a script that ends while the loop is still retrying has not
returned. Every connect attempt and every sleep is recorded. -/

/-- The function `strings.Contains`. -/
def strContains (s substr : String) : Bool :=
  s.data.tails.any (fun t => substr.data.isPrefixOf t)

/-- Duration constant `time.Millisecond`, in nanoseconds. -/
def Millisecond : Int := 1000000

/-- Duration constant `time.Second`, in nanoseconds. -/
def Second : Int := 1000000000

/-- Arithmetic of `int64`: the result of an operation wraps around. -/
def wrapInt64 (x : Int) : Int := (x + 2 ^ 63) % 2 ^ 64 - 2 ^ 63

/-- What the dial loop does to its environment. -/
inductive DialEvent where
  | connect (network address : String)
  | sleep (d : Int)
deriving DecidableEq, Repr

/-- An event that is a connect attempt. -/
def DialEvent.isConnect : DialEvent → Bool
  | .connect _ _ => true
  | .sleep _ => false

/-- An event that is a call of `time.Sleep`. -/
def DialEvent.isSleep : DialEvent → Bool
  | .connect _ _ => false
  | .sleep _ => true

/-- A run of `dial`: the client as the run leaves it, the events in order, and the returned
error (`some none` for a nil error), or `none` when the script ended before `dial` returned. -/
structure DialRun where
  cc : Client
  events : List DialEvent
  returned : Option (Option GoError)
deriving DecidableEq, Repr

/-- The method `dial` of `connect_unix.go`, over a script of connect outcomes, the events so
far in `ev`. -/
def Client.dialUnix (cc : Client) : List (Except GoError Conn) → List DialEvent → DialRun
  | [], ev => { cc := cc, events := ev, returned := none }
  | r :: script, ev =>
    let base := "/tmp/"
    let sock := ".sock"
    let ev := ev ++ [DialEvent.connect "unix" (base ++ cc.Name ++ sock)]
    match r with
    | .error err =>
      if !(strContains err.Error "connect: no such file or directory" ||
          strContains err.Error "connect: connection refused") then
        { cc := cc, events := ev, returned := some (some err) }
      else
        Client.dialUnix cc script (ev ++ [DialEvent.sleep (wrapInt64 (cc.retryTimer * Second))])
    | .ok conn => { cc := { cc with conn := some conn }, events := ev, returned := some none }

/-- The method `dial` of `connect_windows.go`, over a script of connect outcomes. -/
def Client.dialWindows (cc : Client) : List (Except GoError Conn) → List DialEvent → DialRun
  | [], ev => { cc := cc, events := ev, returned := none }
  | r :: script, ev =>
    let pipeBase := "\\\\.\\pipe\\"
    let ev := ev ++ [DialEvent.connect "pipe" (pipeBase ++ cc.Name)]
    match r with
    | .error err =>
      if !(strContains err.Error "The system cannot find the file specified.") then
        { cc := cc, events := ev, returned := some (some err) }
      else
        Client.dialWindows cc script (ev ++ [DialEvent.sleep cc.retryTimer])
    | .ok conn => { cc := { cc with conn := some conn }, events := ev, returned := some none }

/-- The build target, which selects the file that defines `dial`. -/
inductive Platform where
  | posix
  | windows
deriving DecidableEq, Repr

/-- The method `dial` of the build. -/
def Client.dial (pf : Platform) (cc : Client) (script : List (Except GoError Conn)) : DialRun :=
  match pf with
  | .posix => cc.dialUnix script []
  | .windows => cc.dialWindows script []

/-- A run of `StartClient`: the events, and the returned pair `(*Client, error)`, or `none`
when the script ended before `dial` returned. -/
structure StartRun where
  events : List DialEvent
  returned : Option (Option Client × Option GoError)
deriving DecidableEq, Repr

/-- The function `StartClient`. -/
def StartClient (pf : Platform) (ipcName : String) (script : List (Except GoError Conn)) :
    StartRun :=
  let cc : Client :=
    { Name := ipcName, conn := none, retryTimer := wrapInt64 (100 * Millisecond) }
  let run := cc.dial pf script
  match run.returned with
  | none => { events := run.events, returned := none }
  | some (some err) => { events := run.events, returned := some (none, some err) }
  | some none => { events := run.events, returned := some (some run.cc, none) }

/-- A connection on which nothing has happened and whose peer has sent nothing. -/
def idleConn : Conn :=
  { inbound := [], atEnd := GoError.EOF, outbound := [], writeLimit := none, ops := [] }

/-- The error of `net.Dial` while the socket file does not exist yet. -/
def errNoSuchFile : GoError :=
  GoError.net "dial unix /tmp/svc.sock: connect: no such file or directory"

/-- The error of `winio.DialPipe` while the pipe does not exist yet. -/
def errPipeNotFound : GoError :=
  GoError.net "open \\\\.\\pipe\\svc: The system cannot find the file specified."

/-- The step functions of the scanner. -/
inductive ScanStep where
  | beginValueOrEmpty | beginValue | beginStringOrEmpty | beginString | endValue | endTop
  | inString | inStringEsc | inStringEscU | inStringEscU1 | inStringEscU12 | inStringEscU123
  | neg | one | zero | dot | dot0 | exp | expSign | exp0
  | litT | litTr | litTru | litF | litFa | litFal | litFals | litN | litNu | litNul
  | error
deriving DecidableEq, Repr

/-- Entries of the scanner's parse stack. -/
inductive ParseState where
  | objectKey
  | objectValue
  | arrayValue
deriving DecidableEq, Repr

/-- State of the scanner; the parse stack has its innermost entry first. -/
structure Scanner where
  step : ScanStep
  endTop : Bool
  parseState : List ParseState
  err : Option GoError
deriving DecidableEq, Repr

/-- The nesting limit of the scanner. -/
def maxNestingDepth : Nat := 10000

/-- The function `isSpace`: space, tab, carriage return, line feed. -/
def isSpace (c : Byte) : Bool := c == 0x20 || c == 0x09 || c == 0x0d || c == 0x0a

/-- A decimal digit `0`..`9`. -/
def isDigit (c : Byte) : Bool := decide (0x30 ≤ c ∧ c ≤ 0x39)

/-- A hexadecimal digit. -/
def isHexDigit (c : Byte) : Bool :=
  isDigit c || decide (0x61 ≤ c ∧ c ≤ 0x66) || decide (0x41 ≤ c ∧ c ≤ 0x46)

/-- The state after `reset`. -/
def Scanner.reset : Scanner :=
  { step := ScanStep.beginValue, endTop := false, parseState := [], err := none }

/-- A digit of the table `lowerhex` of package `strconv`. -/
def lowerhex (n : Nat) : Char := Char.ofNat (if n < 10 then 0x30 + n else 0x61 + (n - 10))

/-- The function `strconv.IsPrint` on a rune below 256. -/
def isPrintLatin1 (r : Nat) : Bool :=
  decide (0x20 ≤ r ∧ r ≤ 0x7E) || (decide (0xA1 ≤ r ∧ r ≤ 0xFF) && r != 0xAD)

/-- What `strconv.Quote(string(c))` puts between its quotes for a byte `c` other than the
double quote: the character itself when printable, a short escape, a two-digit hexadecimal
escape for the other control characters, a four-digit one for the unprintable runes from
U+0080. -/
def quoteBody (c : Byte) : String :=
  if c == 0x5c then "\\\\"
  else if isPrintLatin1 c then String.singleton (Char.ofNat c)
  else if c == 0x07 then "\\a"
  else if c == 0x08 then "\\b"
  else if c == 0x0c then "\\f"
  else if c == 0x0a then "\\n"
  else if c == 0x0d then "\\r"
  else if c == 0x09 then "\\t"
  else if c == 0x0b then "\\v"
  else if c < 0x20 ∨ c = 0x7f then "\\x" ++ String.mk [lowerhex (c / 16), lowerhex (c % 16)]
  else "\\u00" ++ String.mk [lowerhex (c / 16 % 16), lowerhex (c % 16)]

/-- The function `quoteChar` of `scanner.go`: the byte between single quotes, as error
messages show it. -/
def quoteChar (c : Byte) : String :=
  if c == 0x27 then "\x27\\\x27\x27"
  else if c == 0x22 then "\x27\"\x27"
  else "\x27" ++ quoteBody c ++ "\x27"

/-- The method `error`: records the syntax error for byte `c` and returns `scanError`. -/
def Scanner.error (s : Scanner) (c : Byte) (context : String) : Scanner × Bool :=
  ({ s with step := ScanStep.error,
            err := some (GoError.json ("invalid character " ++ quoteChar c ++ " " ++ context)) },
    true)

/-- Continue in step `st`; the returned code is not `scanError`. -/
def Scanner.goto (s : Scanner) (st : ScanStep) : Scanner × Bool :=
  ({ s with step := st }, false)

/-- The method `pushParseState`, the step already set by the caller. -/
def Scanner.pushParseState (s : Scanner) (c : Byte) (newParseState : ParseState) :
    Scanner × Bool :=
  let s := { s with parseState := newParseState :: s.parseState }
  if s.parseState.length ≤ maxNestingDepth then (s, false)
  else s.error c "exceeded max depth"

/-- The method `popParseState`. -/
def Scanner.popParseState (s : Scanner) : Scanner :=
  let rest := s.parseState.tail
  if rest.length = 0 then { s with parseState := rest, step := ScanStep.endTop, endTop := true }
  else { s with parseState := rest, step := ScanStep.endValue }

/-- The step `stateEndTop`: a non-space byte records an error, reported on the next call. -/
def Scanner.stateEndTop (s : Scanner) (c : Byte) : Scanner × Bool :=
  if !isSpace c then ((s.error c "after top-level value").1, false) else (s, false)

/-- The step `stateEndValue`. -/
def Scanner.stateEndValue (s : Scanner) (c : Byte) : Scanner × Bool :=
  match s.parseState with
  | [] => Scanner.stateEndTop { s with step := ScanStep.endTop, endTop := true } c
  | ps :: rest =>
    if isSpace c then s.goto ScanStep.endValue
    else
      match ps with
      | .objectKey =>
        if c == 0x3a then -- ':'
          ({ s with parseState := ParseState.objectValue :: rest, step := ScanStep.beginValue },
            false)
        else s.error c "after object key"
      | .objectValue =>
        if c == 0x2c then -- ','
          ({ s with parseState := ParseState.objectKey :: rest, step := ScanStep.beginString },
            false)
        else if c == 0x7d then (s.popParseState, false) -- '}'
        else s.error c "after object key:value pair"
      | .arrayValue =>
        if c == 0x2c then s.goto ScanStep.beginValue -- ','
        else if c == 0x5d then (s.popParseState, false) -- ']'
        else s.error c "after array element"

/-- The step `stateBeginValue`. -/
def Scanner.stateBeginValue (s : Scanner) (c : Byte) : Scanner × Bool :=
  if isSpace c then (s, false)
  else if c == 0x7b then -- '{'
    Scanner.pushParseState { s with step := ScanStep.beginStringOrEmpty } c ParseState.objectKey
  else if c == 0x5b then -- '['
    Scanner.pushParseState { s with step := ScanStep.beginValueOrEmpty } c ParseState.arrayValue
  else if c == 0x22 then s.goto ScanStep.inString -- '"'
  else if c == 0x2d then s.goto ScanStep.neg -- '-'
  else if c == 0x30 then s.goto ScanStep.zero -- '0'
  else if c == 0x74 then s.goto ScanStep.litT -- 't'
  else if c == 0x66 then s.goto ScanStep.litF -- 'f'
  else if c == 0x6e then s.goto ScanStep.litN -- 'n'
  else if decide (0x31 ≤ c ∧ c ≤ 0x39) then s.goto ScanStep.one
  else s.error c "looking for beginning of value"

/-- The step `stateBeginString`. -/
def Scanner.stateBeginString (s : Scanner) (c : Byte) : Scanner × Bool :=
  if isSpace c then (s, false)
  else if c == 0x22 then s.goto ScanStep.inString
  else s.error c "looking for beginning of object key string"

/-- The step `state0`. -/
def Scanner.state0 (s : Scanner) (c : Byte) : Scanner × Bool :=
  if c == 0x2e then s.goto ScanStep.dot -- '.'
  else if c == 0x65 || c == 0x45 then s.goto ScanStep.exp -- 'e', 'E'
  else s.stateEndValue c

/-- The step `stateESign`. -/
def Scanner.stateESign (s : Scanner) (c : Byte) : Scanner × Bool :=
  if isDigit c then s.goto ScanStep.exp0
  else s.error c "in exponent of numeric literal"

/-- A step inside a literal name: byte `want` leads to `next`. -/
def Scanner.expect (s : Scanner) (c want : Byte) (next : ScanStep) (context : String) :
    Scanner × Bool :=
  if c == want then s.goto next else s.error c context

/-- A step inside a `\u` escape: a hexadecimal digit leads to `next`. -/
def Scanner.expectHex (s : Scanner) (c : Byte) (next : ScanStep) : Scanner × Bool :=
  if isHexDigit c then s.goto next else s.error c "in \\u hexadecimal character escape"

/-- One call `s.step(s, c)`: the scanner after the byte, and whether the call returned
`scanError`. -/
def Scanner.stepByte (s : Scanner) (c : Byte) : Scanner × Bool :=
  match s.step with
  | .beginValueOrEmpty =>
    if isSpace c then (s, false)
    else if c == 0x5d then s.stateEndValue c -- ']'
    else s.stateBeginValue c
  | .beginValue => s.stateBeginValue c
  | .beginStringOrEmpty =>
    if isSpace c then (s, false)
    else if c == 0x7d then -- '}'
      Scanner.stateEndValue
        { s with parseState := ParseState.objectValue :: s.parseState.tail } c
    else s.stateBeginString c
  | .beginString => s.stateBeginString c
  | .endValue => s.stateEndValue c
  | .endTop => s.stateEndTop c
  | .inString =>
    if c == 0x22 then s.goto ScanStep.endValue -- '"'
    else if c == 0x5c then s.goto ScanStep.inStringEsc -- backslash
    else if decide (c < 0x20) then s.error c "in string literal"
    else (s, false)
  | .inStringEsc =>
    if c == 0x62 || c == 0x66 || c == 0x6e || c == 0x72 || c == 0x74 || c == 0x5c
        || c == 0x2f || c == 0x22 then s.goto ScanStep.inString
    else if c == 0x75 then s.goto ScanStep.inStringEscU -- 'u'
    else s.error c "in string escape code"
  | .inStringEscU => s.expectHex c ScanStep.inStringEscU1
  | .inStringEscU1 => s.expectHex c ScanStep.inStringEscU12
  | .inStringEscU12 => s.expectHex c ScanStep.inStringEscU123
  | .inStringEscU123 => s.expectHex c ScanStep.inString
  | .neg =>
    if c == 0x30 then s.goto ScanStep.zero
    else if decide (0x31 ≤ c ∧ c ≤ 0x39) then s.goto ScanStep.one
    else s.error c "in numeric literal"
  | .one => if isDigit c then s.goto ScanStep.one else s.state0 c
  | .zero => s.state0 c
  | .dot =>
    if isDigit c then s.goto ScanStep.dot0
    else s.error c "after decimal point in numeric literal"
  | .dot0 =>
    if isDigit c then (s, false)
    else if c == 0x65 || c == 0x45 then s.goto ScanStep.exp
    else s.stateEndValue c
  | .exp =>
    if c == 0x2b || c == 0x2d then s.goto ScanStep.expSign -- '+', '-'
    else s.stateESign c
  | .expSign => s.stateESign c
  | .exp0 => if isDigit c then (s, false) else s.stateEndValue c
  | .litT => s.expect c 0x72 ScanStep.litTr "in literal true (expecting \x27r\x27)"
  | .litTr => s.expect c 0x75 ScanStep.litTru "in literal true (expecting \x27u\x27)"
  | .litTru => s.expect c 0x65 ScanStep.endValue "in literal true (expecting \x27e\x27)"
  | .litF => s.expect c 0x61 ScanStep.litFa "in literal false (expecting \x27a\x27)"
  | .litFa => s.expect c 0x6c ScanStep.litFal "in literal false (expecting \x27l\x27)"
  | .litFal => s.expect c 0x73 ScanStep.litFals "in literal false (expecting \x27s\x27)"
  | .litFals => s.expect c 0x65 ScanStep.endValue "in literal false (expecting \x27e\x27)"
  | .litN => s.expect c 0x75 ScanStep.litNu "in literal null (expecting \x27u\x27)"
  | .litNu => s.expect c 0x6c ScanStep.litNul "in literal null (expecting \x27l\x27)"
  | .litNul => s.expect c 0x6c ScanStep.endValue "in literal null (expecting \x27l\x27)"
  | .error => (s, true)

/-- The loop of `checkValid`: step over the bytes, stop at the first `scanError`. -/
def Scanner.scanBytes (s : Scanner) : List Byte → Scanner × Bool
  | [] => (s, false)
  | c :: cs =>
    let r := s.stepByte c
    if r.2 then (r.1, true) else Scanner.scanBytes r.1 cs

/-- The method `eof`: the scanner, and whether the call returned `scanError`. -/
def Scanner.eof (s : Scanner) : Scanner × Bool :=
  if s.err ≠ none then (s, true)
  else if s.endTop then (s, false)
  else
    let s := (s.stepByte 0x20).1
    if s.endTop then (s, false)
    else
      ({ s with err := if s.err = none then some (GoError.json "unexpected end of JSON input")
                       else s.err }, true)

/-- The function `checkValid`: the syntax error of `data`, or nil. -/
def checkValid (data : List Byte) : Option GoError :=
  let r := Scanner.scanBytes Scanner.reset data
  if r.2 then r.1.err
  else
    let e := r.1.eof
    if e.2 then e.1.err else none

/-- A scanner that has recorded no error and is not in the step `stateError`. -/
def Scanner.Clean (s : Scanner) : Prop := s.err = none ∧ s.step ≠ ScanStep.error

/-- A scanner in the step `stateError`, with a syntax error recorded. -/
def Scanner.Failed (s : Scanner) : Prop :=
  s.step = ScanStep.error ∧ ∃ m, s.err = some (GoError.json m)

/-- What a step leaves behind: a clean scanner and a code other than `scanError`, or a failed
scanner. -/
def Scanner.Outcome (r : Scanner × Bool) : Prop := (r.1.Clean ∧ r.2 = false) ∨ r.1.Failed

/-! ## Reference codec: UTF-8 and string literals

Go strings are byte sequences. `json.Marshal` and `json.Unmarshal` coerce them to well-formed
UTF-8 with `utf8.DecodeRune` and `utf8.EncodeRune`. Loops that advance by the width of a rune
take as fuel the length of their input, which bounds the number of their iterations. -/

/-- The rune `utf8.RuneError`, U+FFFD. -/
def RuneError : Nat := 0xFFFD

/-- A UTF-8 continuation byte. -/
def isCont (b : Byte) : Bool := decide (0x80 ≤ b ∧ b ≤ 0xBF)

/-- The function `utf8.DecodeRune`: the first rune of the bytes and its width; an invalid
encoding gives `(RuneError, 1)`, no byte gives `(RuneError, 0)`. -/
def decodeRune : List Byte → Nat × Nat
  | [] => (RuneError, 0)
  | b0 :: rest =>
    if b0 < 0x80 then (b0, 1)
    else if 0xC2 ≤ b0 ∧ b0 ≤ 0xDF then
      match rest with
      | b1 :: _ => if isCont b1 then ((b0 % 32) * 64 + b1 % 64, 2) else (RuneError, 1)
      | _ => (RuneError, 1)
    else if 0xE0 ≤ b0 ∧ b0 ≤ 0xEF then
      match rest with
      | b1 :: b2 :: _ =>
        let lo := if b0 = 0xE0 then 0xA0 else 0x80
        let hi := if b0 = 0xED then 0x9F else 0xBF
        if lo ≤ b1 ∧ b1 ≤ hi ∧ isCont b2 = true then
          ((b0 % 16) * 4096 + (b1 % 64) * 64 + b2 % 64, 3)
        else (RuneError, 1)
      | _ => (RuneError, 1)
    else if 0xF0 ≤ b0 ∧ b0 ≤ 0xF4 then
      match rest with
      | b1 :: b2 :: b3 :: _ =>
        let lo := if b0 = 0xF0 then 0x90 else 0x80
        let hi := if b0 = 0xF4 then 0x8F else 0xBF
        if lo ≤ b1 ∧ b1 ≤ hi ∧ isCont b2 = true ∧ isCont b3 = true then
          ((b0 % 8) * 262144 + (b1 % 64) * 4096 + (b2 % 64) * 64 + b3 % 64, 4)
        else (RuneError, 1)
      | _ => (RuneError, 1)
    else (RuneError, 1)

/-- The function `utf8.EncodeRune`; surrogates and values above U+10FFFF are written as
U+FFFD. -/
def encodeRune (r : Nat) : List Byte :=
  if r ≤ 0x7F then [r]
  else if r ≤ 0x7FF then [0xC0 + r / 64, 0x80 + r % 64]
  else if (0xD800 ≤ r ∧ r ≤ 0xDFFF) ∨ 0x10FFFF < r then [0xEF, 0xBF, 0xBD]
  else if r ≤ 0xFFFF then [0xE0 + r / 4096, 0x80 + r / 64 % 64, 0x80 + r % 64]
  else [0xF0 + r / 262144, 0x80 + r / 4096 % 64, 0x80 + r / 64 % 64, 0x80 + r % 64]

/-- The bytes of a Go string literal. -/
def goString (s : String) : List Byte :=
  s.data.flatMap (fun c => encodeRune c.toNat)

/-- A digit of the table `"0123456789abcdef"`. -/
def hexChar (n : Nat) : Byte := if n < 10 then 0x30 + n else 0x61 + (n - 10)

/-- The table `htmlSafeSet`: the ASCII bytes `json.Marshal` copies unescaped. -/
def htmlSafe (b : Byte) : Bool :=
  decide (0x20 ≤ b ∧ b < 0x80) && !(b == 0x22 || b == 0x5c || b == 0x3c || b == 0x3e || b == 0x26)

/-- The escape `appendString` writes for an ASCII byte outside `htmlSafeSet` (Go 1.22 and
later, which write backspace and form feed in their short form). -/
def escapeByte (b : Byte) : List Byte :=
  if b == 0x5c || b == 0x22 then [0x5c, b]
  else if b == 0x08 then [0x5c, 0x62]
  else if b == 0x0c then [0x5c, 0x66]
  else if b == 0x0a then [0x5c, 0x6e]
  else if b == 0x0d then [0x5c, 0x72]
  else if b == 0x09 then [0x5c, 0x74]
  else [0x5c, 0x75, 0x30, 0x30, hexChar (b / 16), hexChar (b % 16)]

/-- The loop of `appendString` with `escapeHTML` set. -/
def appendStringLoop : Nat → List Byte → List Byte
  | 0, _ => []
  | _, [] => []
  | fuel + 1, b :: rest =>
    if b < 0x80 then
      (if htmlSafe b then [b] else escapeByte b) ++ appendStringLoop fuel rest
    else
      let r := decodeRune (b :: rest)
      if r.1 = RuneError ∧ r.2 = 1 then
        [0x5c, 0x75, 0x66, 0x66, 0x66, 0x64] ++ appendStringLoop fuel rest
      else if r.1 = 0x2028 ∨ r.1 = 0x2029 then
        [0x5c, 0x75, 0x32, 0x30, 0x32, hexChar (r.1 % 16)]
          ++ appendStringLoop fuel (rest.drop (r.2 - 1))
      else (b :: rest).take r.2 ++ appendStringLoop fuel (rest.drop (r.2 - 1))

/-- The function `appendString`: the JSON string literal of a Go string. -/
def appendString (src : List Byte) : List Byte :=
  [0x22] ++ appendStringLoop src.length src ++ [0x22]

/-- The value of a hexadecimal digit, if it is one. -/
def hexValue (c : Byte) : Option Nat :=
  if isDigit c then some (c - 0x30)
  else if 0x61 ≤ c ∧ c ≤ 0x66 then some (c - 0x61 + 10)
  else if 0x41 ≤ c ∧ c ≤ 0x46 then some (c - 0x41 + 10)
  else none

/-- The function `getu4`: the rune of a leading `\uXXXX`, or `none` for `-1`. -/
def getu4 : List Byte → Option Nat
  | 0x5c :: 0x75 :: a :: b :: c :: d :: _ =>
    match hexValue a, hexValue b, hexValue c, hexValue d with
    | some x, some y, some z, some w => some (((x * 16 + y) * 16 + z) * 16 + w)
    | _, _, _, _ => none
  | _ => none

/-- The function `utf16.DecodeRune`. -/
def utf16DecodeRune (r1 : Nat) (r2 : Option Nat) : Nat :=
  match r2 with
  | some r2 =>
    if 0xD800 ≤ r1 ∧ r1 < 0xDC00 ∧ 0xDC00 ≤ r2 ∧ r2 < 0xE000 then
      (r1 - 0xD800) * 1024 + (r2 - 0xDC00) + 0x10000
    else RuneError
  | none => RuneError

/-- The loop of `unquoteBytes` over the bytes between the quotes; `none` when the literal is
malformed. -/
def unquoteLoop : Nat → List Byte → Option (List Byte)
  | _, [] => some []
  | 0, _ :: _ => none
  | fuel + 1, c :: rest =>
    if c == 0x5c then
      match rest with
      | [] => none
      | e :: rest2 =>
        if e == 0x22 || e == 0x5c || e == 0x2f || e == 0x27 then
          (unquoteLoop fuel rest2).map (fun t => e :: t)
        else if e == 0x62 then (unquoteLoop fuel rest2).map (fun t => 0x08 :: t)
        else if e == 0x66 then (unquoteLoop fuel rest2).map (fun t => 0x0c :: t)
        else if e == 0x6e then (unquoteLoop fuel rest2).map (fun t => 0x0a :: t)
        else if e == 0x72 then (unquoteLoop fuel rest2).map (fun t => 0x0d :: t)
        else if e == 0x74 then (unquoteLoop fuel rest2).map (fun t => 0x09 :: t)
        else if e == 0x75 then
          match getu4 (c :: rest) with
          | none => none
          | some rr =>
            let after := rest2.drop 4
            if 0xD800 ≤ rr ∧ rr < 0xE000 then
              let dec := utf16DecodeRune rr (getu4 after)
              if dec ≠ RuneError then
                (unquoteLoop fuel (after.drop 6)).map (fun t => encodeRune dec ++ t)
              else (unquoteLoop fuel after).map (fun t => encodeRune RuneError ++ t)
            else (unquoteLoop fuel after).map (fun t => encodeRune rr ++ t)
        else none
    else if c == 0x22 || decide (c < 0x20) then none
    else if c < 0x80 then (unquoteLoop fuel rest).map (fun t => c :: t)
    else
      let r := decodeRune (c :: rest)
      (unquoteLoop fuel (rest.drop (r.2 - 1))).map (fun t => encodeRune r.1 ++ t)

/-- The function `unquoteBytes`, on the bytes between the quotes of a string literal. -/
def unquoteBytes (raw : List Byte) : Option (List Byte) :=
  unquoteLoop raw.length raw

/-- The function `foldName` as far as it can meet an ASCII name: ASCII letters in upper case,
U+017F as `S`, U+212A as `K`. -/
def foldName : List Byte → List Byte
  | 0xC5 :: 0xBF :: rest => 0x53 :: foldName rest
  | 0xE2 :: 0x84 :: 0xAA :: rest => 0x4B :: foldName rest
  | c :: rest => (if 0x61 ≤ c ∧ c ≤ 0x7a then c - 0x20 else c) :: foldName rest
  | [] => []

/-! ## Reference codec: `json.Marshal` and `json.Unmarshal` on a struct with one string field

The request and response types of `main.go` are structs with a single string field and a
`json` tag. `json.Marshal` writes the object with that one member. `json.Unmarshal` checks the
syntax of the whole input, then walks the top-level value: in an object, a member whose key
matches the tag (exactly or under case folding) stores a string value into the field, leaves
the field alone on `null`, and records an `UnmarshalTypeError` on any other value; other
members are skipped; the first recorded error is returned after the walk. A top-level `null`
changes nothing, any other top-level value is an `UnmarshalTypeError`. -/

/-- Drop leading JSON white space. -/
def skipSpace : List Byte → List Byte
  | [] => []
  | c :: rest => if isSpace c then skipSpace rest else c :: rest

/-- The raw bytes of a string literal whose opening quote has been read, and the bytes
after its closing quote. -/
def scanStringLit : List Byte → Option (List Byte × List Byte)
  | [] => none
  | [c] => if c == 0x22 then some ([], []) else none
  | c :: d :: rest =>
    if c == 0x22 then some ([], d :: rest)
    else if c == 0x5c then (scanStringLit rest).map (fun r => (c :: d :: r.1, r.2))
    else (scanStringLit (d :: rest)).map (fun r => (c :: r.1, r.2))

/-- The bytes after an object or array whose opening bracket has been read: `depth` counts
the open brackets, `inStr` and `esc` track string literals. -/
def skipComposite : Nat → Bool → Bool → List Byte → Option (List Byte)
  | _, _, _, [] => none
  | depth, true, true, _ :: rest => skipComposite depth true false rest
  | depth, true, false, c :: rest =>
    if c == 0x5c then skipComposite depth true true rest
    else if c == 0x22 then skipComposite depth false false rest
    else skipComposite depth true false rest
  | depth, false, _, c :: rest =>
    if c == 0x22 then skipComposite depth true false rest
    else if c == 0x7b || c == 0x5b then skipComposite (depth + 1) false false rest
    else if c == 0x7d || c == 0x5d then
      if depth ≤ 1 then some rest else skipComposite (depth - 1) false false rest
    else skipComposite depth false false rest

/-- The bytes after a number, `true`, `false` or `null`. -/
def skipLiteral : List Byte → List Byte
  | [] => []
  | c :: rest =>
    if isSpace c || c == 0x2c || c == 0x7d || c == 0x5d then c :: rest else skipLiteral rest

/-- The kinds of JSON value the decoder tells apart. -/
inductive ValueKind where
  | string (raw : List Byte)
  | object
  | array
  | bool
  | null
  | number
deriving DecidableEq, Repr

/-- The value at the head of the input and the bytes after it. -/
def scanValue : List Byte → Option (ValueKind × List Byte)
  | [] => none
  | c :: rest =>
    if c == 0x22 then (scanStringLit rest).map (fun r => (ValueKind.string r.1, r.2))
    else if c == 0x7b then (skipComposite 1 false false rest).map (fun r => (ValueKind.object, r))
    else if c == 0x5b then (skipComposite 1 false false rest).map (fun r => (ValueKind.array, r))
    else if c == 0x74 || c == 0x66 then some (ValueKind.bool, skipLiteral rest)
    else if c == 0x6e then some (ValueKind.null, skipLiteral rest)
    else some (ValueKind.number, skipLiteral rest)

/-- The panic of a decoder that lost track of its input, `phasePanicMsg`; it stands in the
branches that input which passed the syntax check does not reach. -/
def phasePanic : GoError := GoError.json "JSON decoder out of sync - data changing underfoot?"

/-- The text of an `UnmarshalTypeError` for a top-level JSON value of kind `value` and a
target of Go type `goType`. -/
def unmarshalTypeError (value goType : String) : GoError :=
  GoError.json ("json: cannot unmarshal " ++ value ++ " into Go value of type " ++ goType)

/-- The text of an `UnmarshalTypeError` for a JSON value of kind `value` met at the string
field `fieldName` of the struct `structName`. -/
def unmarshalFieldTypeError (value structName fieldName : String) : GoError :=
  GoError.json ("json: cannot unmarshal " ++ value ++ " into Go struct field " ++ structName
    ++ "." ++ fieldName ++ " of type string")

/-- The method `saveError`: only the first error is kept. -/
def saveError (saved : Option GoError) (err : GoError) : Option GoError :=
  match saved with
  | some e => some e
  | none => some err

/-- Store a value into the string field `fieldName` of the struct `structName`: the field
after the store and the saved error. -/
def storeString (structName fieldName : String) (v : ValueKind)
    (st : List Byte × Option GoError) : List Byte × Option GoError :=
  match v with
  | .string raw =>
    match unquoteBytes raw with
    | some t => (t, st.2)
    | none => (st.1, saveError st.2 phasePanic)
  | .null => st
  | .bool => (st.1, saveError st.2 (unmarshalFieldTypeError "bool" structName fieldName))
  | .number => (st.1, saveError st.2 (unmarshalFieldTypeError "number" structName fieldName))
  | .object => (st.1, saveError st.2 (unmarshalFieldTypeError "object" structName fieldName))
  | .array => (st.1, saveError st.2 (unmarshalFieldTypeError "array" structName fieldName))

/-- The member loop of the method `object` for the struct `structName` whose only field has
the JSON name `fieldName`; the input stands after `{` or after a comma; `none` when the input
is not the rest of an object. Each turn consumes input, whose length is the fuel. -/
def decodeMembers (structName fieldName : String) :
    Nat → List Byte → List Byte × Option GoError → Option (List Byte × Option GoError)
  | 0, _, _ => none
  | fuel + 1, data, st =>
    match skipSpace data with
    | [] => none
    | c :: rest =>
      if c == 0x7d then some st
      else if c == 0x22 then
        match scanStringLit rest with
        | none => none
        | some (rawKey, rest) =>
          match unquoteBytes rawKey with
          | none => none
          | some key =>
            match skipSpace rest with
            | [] => none
            | colon :: rest =>
              if colon == 0x3a then
                match scanValue (skipSpace rest) with
                | none => none
                | some (v, rest) =>
                  let st :=
                    if key = goString fieldName ∨ foldName key = foldName (goString fieldName)
                    then storeString structName fieldName v st
                    else st
                  match skipSpace rest with
                  | [] => none
                  | sep :: rest =>
                    if sep == 0x2c then decodeMembers structName fieldName fuel rest st
                    else if sep == 0x7d then some st
                    else none
              else none
      else none

/-- The call `json.Unmarshal(data, &v)` for a struct `v` of Go type `goType`, named
`structName`, whose only field is a string with the JSON name `fieldName` and the value
`field`: the field after the call, and the error. -/
def unmarshalStringField (goType structName fieldName : String) (data : List Byte)
    (field : List Byte) : List Byte × Option GoError :=
  match checkValid data with
  | some err => (field, some err)
  | none =>
    match scanValue (skipSpace data) with
    | none => (field, some phasePanic)
    | some (.object, _) =>
      match decodeMembers structName fieldName data.length ((skipSpace data).drop 1)
          (field, none) with
      | some r => r
      | none => (field, some phasePanic)
    | some (.null, _) => (field, none)
    | some (.string _, _) => (field, some (unmarshalTypeError "string" goType))
    | some (.array, _) => (field, some (unmarshalTypeError "array" goType))
    | some (.bool, _) => (field, some (unmarshalTypeError "bool" goType))
    | some (.number, _) => (field, some (unmarshalTypeError "number" goType))

/-- The call `json.Marshal(v)` for a struct `v` whose only field is a string with the JSON
name `name` and the value `field`. -/
def marshalStringField (name : List Byte) (field : List Byte) : List Byte × Option GoError :=
  ([0x7b, 0x22] ++ name ++ [0x22, 0x3a] ++ appendString field ++ [0x7d], none)

/-! ## The example program (`main.go`) -/

/-- The request type of `main.go`, with the JSON name `name`. -/
structure ipcRequest where
  Name : List Byte
deriving DecidableEq, Repr

/-- The response type of `main.go`, with the JSON name `message`. -/
structure ipcResponse where
  Message : List Byte
deriving DecidableEq, Repr

/-- The codec of `Client[ipcRequest, ipcResponse]`. -/
def jsonCodec : Codec ipcRequest ipcResponse where
  Marshal := fun req => marshalStringField (goString "name") req.Name
  Unmarshal := fun data res =>
    let r := unmarshalStringField "main.ipcResponse" "ipcResponse" "message" data res.Message
    ({ Message := r.1 }, r.2)
  zero := { Message := [] }

/-- The codec of `Client[ipcRequest, ipcRequest]`, a client whose peer echoes requests. -/
def echoCodec : Codec ipcRequest ipcRequest where
  Marshal := fun req => marshalStringField (goString "name") req.Name
  Unmarshal := fun data res =>
    let r := unmarshalStringField "main.ipcRequest" "ipcRequest" "name" data res.Name
    ({ Name := r.1 }, r.2)
  zero := { Name := [] }

/-- The request of `main.go`: `ipcRequest{Name: "bob"}`. -/
def reqBob : ipcRequest := { Name := goString "bob" }

/-- The response of the scenario: `ipcResponse{Message: "hello bob"}`. -/
def respHello : ipcResponse := { Message := goString "hello bob" }

/-- The frame a peer sends for a payload: the length in 4 big-endian bytes, then the payload. -/
def frameOf (payload : List Byte) : List Byte :=
  specBigEndian32 payload.length ++ payload

/-- The frame with which the peer answers `respHello`. -/
def respHelloFrame : List Byte :=
  frameOf (marshalStringField (goString "message") respHello.Message).1

/-- A fresh connection on which the peer's bytes arrive in the given chunks before the peer
closes. -/
def connWith (chunks : List (List Byte)) : Conn :=
  { inbound := chunks, atEnd := GoError.EOF, outbound := [], writeLimit := none, ops := [] }

/-- The client `StartClient` returns for the name `svc` once connected. -/
def clientOn (conn : Conn) : Client :=
  { Name := "svc", conn := some conn, retryTimer := 100000000 }

/-- The bytes of the JSON text of `reqBob`, 14 of them. -/
def reqBobJSON : List Byte := goString "\x7b\"name\":\"bob\"\x7d"

/-- A first message: `ipcRequest{Name: "a"}`. -/
def reqA : ipcRequest := { Name := goString "a" }

/-- A second message: `ipcRequest{Name: "b"}`. -/
def reqB : ipcRequest := { Name := goString "b" }

/-- The frames of `reqA` and `reqB` back to back, as two calls of `write` leave them on the
stream. -/
def twoFrames : List Byte :=
  frameOf (echoCodec.Marshal reqA).1 ++ frameOf (echoCodec.Marshal reqB).1

/-- A stream cut so that every `Read` call is offered one byte. -/
def byteWise (stream : List Byte) : List (List Byte) := stream.map (fun b => [b])

/-- A frame head that declares 100 payload bytes, followed by the first 10 bytes of the
payload of `respHelloFrame`. -/
def truncatedFrame : List Byte :=
  specBigEndian32 100 ++ ((marshalStringField (goString "message") respHello.Message).1).take 10

/-- What a call of `read` or `Send` returned, without the client. -/
def returned {Res : Type} (r : Option (Client × Res × Option GoError)) :
    Option (Res × Option GoError) :=
  r.map (fun x => x.2)

/-- The 255 payload bytes of a frame cut short: the JSON text of
`ipcResponse{Message: "x"}` and 240 spaces. -/
def shortPayload : List Byte :=
  (marshalStringField (goString "message") (goString "x")).1 ++ List.replicate 240 0x20

/-! # Theorems -/

/-! ## Length codec -/

theorem or_bytes (b0 b1 b2 b3 : Nat) (h1 : b1 < 256) (h2 : b2 < 256) (h3 : b3 < 256) :
    (b3 ||| b2 <<< 8 ||| b1 <<< 16 ||| b0 <<< 24)
      = b0 * 2 ^ 24 + b1 * 2 ^ 16 + b2 * 2 ^ 8 + b3 := by
  have e1 : 2 ^ 8 * b2 + b3 = 2 ^ 8 * b2 ||| b3 := Nat.mul_add_lt_is_or (by omega) _
  have e2 : 2 ^ 16 * b1 + (2 ^ 8 * b2 + b3) = 2 ^ 16 * b1 ||| (2 ^ 8 * b2 + b3) :=
    Nat.mul_add_lt_is_or (by omega) _
  have e3 : 2 ^ 24 * b0 + (2 ^ 16 * b1 + (2 ^ 8 * b2 + b3))
      = 2 ^ 24 * b0 ||| (2 ^ 16 * b1 + (2 ^ 8 * b2 + b3)) :=
    Nat.mul_add_lt_is_or (by omega) _
  simp only [Nat.shiftLeft_eq, Nat.mul_comm _ (2 ^ 8), Nat.mul_comm _ (2 ^ 16),
    Nat.mul_comm _ (2 ^ 24)]
  rw [Nat.or_comm b3, Nat.or_comm (_ ||| b3), Nat.or_comm (_ ||| _), ← e1, ← e2, ← e3]
  omega

theorem toByte_lt (x : Nat) : toByte x < 256 := Nat.mod_lt _ (by decide)

theorem toByte_toByte (x : Nat) : toByte (toByte x) = toByte x := by
  simp [toByte]

/-- Decoding the four bytes written by `PutUint32` gives the value back, for a 32-bit value. -/
theorem uint32Of_putUint32 (v : Nat) (hv : v < 2 ^ 32) :
    uint32Of (toByte (v >>> 24)) (toByte (v >>> 16)) (toByte (v >>> 8)) (toByte v) = v := by
  unfold uint32Of
  simp only [toByte_toByte]
  rw [or_bytes _ _ _ _ (toByte_lt _) (toByte_lt _) (toByte_lt _)]
  simp only [toByte, Nat.shiftRight_eq_div_pow]
  omega

theorem toUint32_lt (n : Int) : toUint32 n < 2 ^ 32 := by
  unfold toUint32
  omega

theorem intToBytes_length (n : Int) : (intToBytes n).length = 4 := rfl

/-- The length codec composed: encoding then decoding reduces the integer modulo `2^32`. -/
theorem bytesToInt_intToBytes (n : Int) :
    bytesToInt (intToBytes n) = (n % 2 ^ 32, none) := by
  have h := uint32Of_putUint32 (toUint32 n) (toUint32_lt n)
  simp only [intToBytes, putUint32, bytesToInt, h]
  have : (Int.ofNat (toUint32 n)) = n % 2 ^ 32 := by
    unfold toUint32
    simp
    omega
  rw [this]

/-- C1: for every `n` with `0 ≤ n ≤ 2^32 - 1`, `intToBytes n` is a 4-byte slice and
`bytesToInt (intToBytes n)` returns `(n, nil)`. -/
theorem C1_length_codec_inverse (n : Int) (h0 : 0 ≤ n) (h1 : n ≤ 2 ^ 32 - 1) :
    (intToBytes n).length = 4 ∧ bytesToInt (intToBytes n) = (n, none) := by
  refine ⟨rfl, ?_⟩
  rw [bytesToInt_intToBytes]
  have : n % 2 ^ 32 = n := Int.emod_eq_of_lt h0 (by omega)
  rw [this]

/-- C1 at `n = 2^32 - 1`, the largest length of the range. -/
theorem C1_length_codec_inverse_witness :
    (intToBytes 4294967295).length = 4 ∧
      bytesToInt (intToBytes 4294967295) = (4294967295, none) :=
  C1_length_codec_inverse 4294967295 (by decide) (by decide)

/-! ## Writes on the connection -/

theorem Conn.Write_noLimit (c : Conn) (p : List Byte) (h : c.writeLimit = none) :
    c.Write p = ({ c with outbound := c.outbound ++ p, ops := c.ops ++ [ConnOp.write p] },
      p.length, none) := by
  simp [Conn.Write, h]

theorem Conn.SameInbound.refl (c : Conn) : c.SameInbound c := ⟨rfl, rfl, rfl⟩

theorem Conn.SameInbound.trans {a b c : Conn} (h1 : a.SameInbound b) (h2 : b.SameInbound c) :
    a.SameInbound c :=
  ⟨h2.1.trans h1.1, h2.2.1.trans h1.2.1, h2.2.2.trans h1.2.2⟩

theorem Conn.Write_keepsInbound (c : Conn) (p : List Byte) : c.SameInbound (c.Write p).1 := by
  unfold Conn.Write Conn.SameInbound Conn.readCount
  rcases c.writeLimit with _ | ⟨k, e⟩
  · simp [ConnOp.isRead]
  · by_cases hk : p.length ≤ k <;> simp [hk, ConnOp.isRead]

theorem Writer.Flush_sameInbound (b : Writer) : b.wr.SameInbound b.Flush.1.wr := by
  unfold Writer.Flush
  rcases b.err with _ | e
  · by_cases hl : b.buf.length = 0
    · simp [hl, Conn.SameInbound.refl]
    · simp only [hl, if_false]
      split <;> exact Conn.Write_keepsInbound _ _
  · exact Conn.SameInbound.refl _

theorem Writer.writeLoop_sameInbound (b : Writer) (p : List Byte) (nn : Nat) :
    b.wr.SameInbound (b.writeLoop p nn).1.wr := by
  induction b, p, nn using Writer.writeLoop.induct with
  | case1 b p nn h hb r ih =>
    rw [Writer.writeLoop, if_pos h, if_pos hb]
    exact (Conn.Write_keepsInbound b.wr p).trans ih
  | case2 b p nn h hb n b1 ih =>
    rw [Writer.writeLoop, if_pos h, if_neg hb]
    have hf := Writer.Flush_sameInbound { buf := b.buf ++ List.take n p, err := b.err, wr := b.wr }
    exact Conn.SameInbound.trans hf ih
  | case3 b p nn h =>
    rw [Writer.writeLoop, if_neg h]
    exact Conn.SameInbound.refl _

theorem Writer.Write_sameInbound (b : Writer) (p : List Byte) :
    b.wr.SameInbound (b.Write p).1.wr := by
  unfold Writer.Write
  dsimp only
  split <;> exact Writer.writeLoop_sameInbound b p 0

theorem writeFrame_sameInbound (conn : Conn) (data : List Byte) :
    conn.SameInbound (writeFrame conn data).1.wr := by
  unfold writeFrame
  have h1 := Writer.Write_sameInbound (NewWriter conn) (intToBytes (Int.ofNat data.length))
  dsimp only
  split
  · rename_i w n e heq
    rw [heq] at h1
    exact h1
  · rename_i w n heq
    rw [heq] at h1
    have h2 := Writer.Write_sameInbound w data
    split
    · rename_i w2 n2 e2 heq2
      rw [heq2] at h2
      exact h1.trans h2
    · rename_i w2 n2 heq2
      rw [heq2] at h2
      exact h1.trans (h2.trans (Writer.Flush_sameInbound w2))

/-! ## The buffered writer over a transport whose writes succeed -/

theorem Writer.Flush_unlimited (b : Writer) (he : b.err = none) (hw : b.wr.writeLimit = none) :
    b.Flush.2 = none ∧ b.Flush.1.err = none ∧ b.Flush.1.buf = [] ∧
      b.Flush.1.wr.writeLimit = none ∧ b.Flush.1.wr.outbound = b.wr.outbound ++ b.buf := by
  unfold Writer.Flush
  rw [he]
  by_cases hl : b.buf.length = 0
  · have hnil : b.buf = [] := List.length_eq_zero.mp hl
    simp [hl, he, hw, hnil]
  · simp [hl, Conn.Write_noLimit _ _ hw, hw]

theorem Writer.writeLoop_unlimited (b : Writer) (p : List Byte) (nn : Nat) :
    b.err = none → b.wr.writeLimit = none →
      (b.writeLoop p nn).1.err = none ∧ (b.writeLoop p nn).1.wr.writeLimit = none ∧
      (b.writeLoop p nn).2.1.length ≤ (b.writeLoop p nn).1.Available ∧
      (b.writeLoop p nn).1.wr.outbound ++ (b.writeLoop p nn).1.buf ++ (b.writeLoop p nn).2.1
        = b.wr.outbound ++ b.buf ++ p := by
  induction b, p, nn using Writer.writeLoop.induct with
  | case1 b p nn h hb r ih =>
    intro he hw
    rw [Writer.writeLoop, if_pos h, if_pos hb]
    have hr : r = b.wr.Write p := rfl
    rw [Conn.Write_noLimit _ _ hw] at hr
    have ih2 := ih (by rw [hr]) (by rw [hr]; exact hw)
    refine ⟨ih2.1, ih2.2.1, ih2.2.2.1, ?_⟩
    have hnil : b.buf = [] := List.length_eq_zero.mp hb
    rw [ih2.2.2.2, hr]
    simp [hnil]
  | case2 b p nn h hb n b1 ih =>
    intro he hw
    rw [Writer.writeLoop, if_pos h, if_neg hb]
    have hf := Writer.Flush_unlimited { buf := b.buf ++ List.take n p, err := b.err, wr := b.wr }
      he hw
    have ih2 := ih hf.2.1 hf.2.2.2.1
    refine ⟨ih2.1, ih2.2.1, ih2.2.2.1, ?_⟩
    have hb1 : b1 = (Writer.Flush { buf := b.buf ++ List.take n p, err := b.err, wr := b.wr }).1 :=
      rfl
    rw [ih2.2.2.2, hb1, hf.2.2.1, hf.2.2.2.2]
    simp
  | case3 b p nn h =>
    intro he hw
    rw [Writer.writeLoop, if_neg h]
    refine ⟨he, hw, ?_, rfl⟩
    simp only [he, and_true] at h
    exact Nat.le_of_not_gt h

theorem Writer.Write_unlimited (b : Writer) (p : List Byte) (he : b.err = none)
    (hw : b.wr.writeLimit = none) :
    (b.Write p).2.2 = none ∧ (b.Write p).1.err = none ∧ (b.Write p).1.wr.writeLimit = none ∧
      (b.Write p).1.wr.outbound ++ (b.Write p).1.buf = b.wr.outbound ++ b.buf ++ p := by
  obtain ⟨h1, h2, h3, h4⟩ := Writer.writeLoop_unlimited b p 0 he hw
  unfold Writer.Write
  dsimp only
  rw [h1]
  dsimp only
  refine ⟨rfl, rfl, h2, ?_⟩
  rw [Nat.min_eq_right h3, List.take_length, ← List.append_assoc, h4]

/-- Over a transport whose writes succeed, `write` reports no error, leaves the buffer of its
writer empty, and the transport has received the encoded length followed by the payload. -/
theorem writeFrame_unlimited (conn : Conn) (data : List Byte) (hw : conn.writeLimit = none) :
    (writeFrame conn data).2 = none ∧ (writeFrame conn data).1.buf = [] ∧
      (writeFrame conn data).1.wr.writeLimit = none ∧
      (writeFrame conn data).1.wr.outbound
        = conn.outbound ++ intToBytes (Int.ofNat data.length) ++ data := by
  have h1 := Writer.Write_unlimited (NewWriter conn) (intToBytes (Int.ofNat data.length)) rfl hw
  unfold writeFrame
  dsimp only
  split
  · rename_i w n e heq
    rw [heq] at h1
    exact absurd h1.1 (by simp)
  · rename_i w n heq
    rw [heq] at h1
    have h2 := Writer.Write_unlimited w data h1.2.1 h1.2.2.1
    split
    · rename_i w2 n2 e2 heq2
      rw [heq2] at h2
      exact absurd h2.1 (by simp)
    · rename_i w2 n2 heq2
      rw [heq2] at h2
      have h3 := Writer.Flush_unlimited w2 h2.2.1 h2.2.2.1
      refine ⟨h3.1, h3.2.2.1, h3.2.2.2.1, ?_⟩
      rw [h3.2.2.2.2, h2.2.2.2, h1.2.2.2]
      simp [NewWriter]

theorem intToBytes_eq_spec (n : Nat) (h : n ≤ 2 ^ 32 - 1) :
    intToBytes (Int.ofNat n) = specBigEndian32 n := by
  have hv : toUint32 (Int.ofNat n) = n := by
    unfold toUint32
    simp
    omega
  simp only [intToBytes, putUint32, hv, toByte, Nat.shiftRight_eq_div_pow, specBigEndian32]

/-! ## `write` and `Send` -/

theorem Client.write_of_marshal {Req Res : Type} (codec : Codec Req Res) (name : String)
    (timer : Int) (conn : Conn) (req : Req) (d : List Byte) (hm : codec.Marshal req = (d, none)) :
    Client.write codec { Name := name, conn := some conn, retryTimer := timer } req
      = some ({ Name := name, conn := some (writeFrame conn d).1.wr, retryTimer := timer },
          (writeFrame conn d).2) := by
  simp [Client.write, hm]

/-- C8: for every request whose encoding is `d` with `len(d) ≤ 2^32 - 1`, over a transport
whose writes succeed, `write` returns no error, the transport has received exactly the 4-byte
big-endian encoding of `len(d)` followed by `d` after what it held before, and the buffered
writer holds no byte when `write` returns. -/
theorem C8_wire_format {Req Res : Type} (codec : Codec Req Res) (name : String) (timer : Int)
    (conn : Conn) (req : Req) (d : List Byte) (hm : codec.Marshal req = (d, none))
    (hlen : d.length ≤ 2 ^ 32 - 1) (hw : conn.writeLimit = none) :
    ∃ conn' : Conn,
      Client.write codec { Name := name, conn := some conn, retryTimer := timer } req
        = some ({ Name := name, conn := some conn', retryTimer := timer }, none) ∧
      conn'.outbound = conn.outbound ++ specBigEndian32 d.length ++ d ∧
      (writeFrame conn d).1.wr = conn' ∧ (writeFrame conn d).1.buf = [] := by
  obtain ⟨h1, h2, _, h4⟩ := writeFrame_unlimited conn d hw
  refine ⟨(writeFrame conn d).1.wr, ?_, ?_, rfl, h2⟩
  · rw [Client.write_of_marshal codec name timer conn req d hm, h1]
  · rw [h4, intToBytes_eq_spec d.length hlen]

/-- C7: if `write` returns an error `e`, `Send` returns the zero response with `e`, and the
connection has seen no `Read`: its inbound stream and its count of `Read` calls are those it
had before the call; if `write` succeeds, `Send` returns what `read` returns on the client
that `write` left. -/
theorem C7_send_stops_on_failed_write {Req Res : Type} (codec : Codec Req Res) (name : String)
    (timer : Int) (conn : Conn) (req : Req) :
    match Client.write codec { Name := name, conn := some conn, retryTimer := timer } req with
    | some (cc', some e) =>
      Client.Send codec { Name := name, conn := some conn, retryTimer := timer } req
        = some (cc', codec.zero, some e) ∧
      ∃ conn', cc'.conn = some conn' ∧ conn.SameInbound conn'
    | some (cc', none) =>
      Client.Send codec { Name := name, conn := some conn, retryTimer := timer } req
        = Client.read codec cc'
    | none => False := by
  rcases hm : codec.Marshal req with ⟨d, _ | e⟩
  · have hw := Client.write_of_marshal codec name timer conn req d hm
    rcases hf : (writeFrame conn d).2 with _ | e
    · rw [hf] at hw
      simp only [hw, Client.Send]
    · rw [hf] at hw
      simp only [hw, Client.Send, true_and]
      exact ⟨_, rfl, writeFrame_sameInbound conn d⟩
  · have hw : Client.write codec { Name := name, conn := some conn, retryTimer := timer } req
        = some ({ Name := name, conn := some conn, retryTimer := timer }, some e) := by
      simp [Client.write, hm]
    simp only [hw, Client.Send, true_and]
    exact ⟨_, rfl, Conn.SameInbound.refl conn⟩

/-! ## Dialing -/

theorem Client.dialUnix_retry (cc : Client) (errs : List GoError) (conn : Conn)
    (rest : List (Except GoError Conn)) (ev : List DialEvent)
    (h : ∀ e ∈ errs, strContains e.Error "connect: no such file or directory" = true) :
    cc.dialUnix (errs.map Except.error ++ Except.ok conn :: rest) ev
      = { cc := { cc with conn := some conn },
          events := ev ++ (List.replicate errs.length
              [DialEvent.connect "unix" ("/tmp/" ++ cc.Name ++ ".sock"),
               DialEvent.sleep (wrapInt64 (cc.retryTimer * Second))]).flatten
            ++ [DialEvent.connect "unix" ("/tmp/" ++ cc.Name ++ ".sock")],
          returned := some none } := by
  induction errs generalizing ev with
  | nil => simp [Client.dialUnix]
  | cons e errs ih =>
    have he := h e (List.mem_cons_self _ _)
    have ih2 := ih (ev ++ [DialEvent.connect "unix" ("/tmp/" ++ cc.Name ++ ".sock"),
      DialEvent.sleep (wrapInt64 (cc.retryTimer * Second))])
      (fun x hx => h x (List.mem_cons_of_mem _ hx))
    simp only [List.map_cons, List.cons_append, Client.dialUnix, he, Bool.true_or, Bool.not_true,
      Bool.false_eq_true, if_false, List.length_cons, List.replicate_succ, List.flatten_cons,
      List.append_assoc, List.nil_append]
    refine ih2.trans ?_
    simp

theorem Client.dialWindows_retry (cc : Client) (errs : List GoError) (conn : Conn)
    (rest : List (Except GoError Conn)) (ev : List DialEvent)
    (h : ∀ e ∈ errs, strContains e.Error "The system cannot find the file specified." = true) :
    cc.dialWindows (errs.map Except.error ++ Except.ok conn :: rest) ev
      = { cc := { cc with conn := some conn },
          events := ev ++ (List.replicate errs.length
              [DialEvent.connect "pipe" ("\\\\.\\pipe\\" ++ cc.Name),
               DialEvent.sleep cc.retryTimer]).flatten
            ++ [DialEvent.connect "pipe" ("\\\\.\\pipe\\" ++ cc.Name)],
          returned := some none } := by
  induction errs generalizing ev with
  | nil => simp [Client.dialWindows]
  | cons e errs ih =>
    have he := h e (List.mem_cons_self _ _)
    have ih2 := ih (ev ++ [DialEvent.connect "pipe" ("\\\\.\\pipe\\" ++ cc.Name),
      DialEvent.sleep cc.retryTimer])
      (fun x hx => h x (List.mem_cons_of_mem _ hx))
    simp only [List.map_cons, List.cons_append, Client.dialWindows, he, Bool.not_true,
      Bool.false_eq_true, if_false, List.length_cons, List.replicate_succ, List.flatten_cons,
      List.append_assoc, List.nil_append]
    refine ih2.trans ?_
    simp

theorem count_retry_events (n : Nat) (c s : DialEvent) (hc : c.isConnect = true)
    (hs : s.isSleep = true) (hc2 : c.isSleep = false) (hs2 : s.isConnect = false) :
    (((List.replicate n [c, s]).flatten ++ [c]).filter DialEvent.isConnect).length = n + 1 ∧
      (((List.replicate n [c, s]).flatten ++ [c]).filter DialEvent.isSleep).length = n := by
  induction n with
  | zero => simp [hc, hc2]
  | succ n ih =>
    simp only [List.replicate_succ, List.flatten_cons, List.append_assoc, List.cons_append,
      List.nil_append, List.filter_cons, hc, hs, hc2, hs2, if_true, List.length_cons]
    simp only [Bool.false_eq_true, if_false, List.length_cons]
    omega

/-- C5: after `N` connect failures of the "not found" kind and then a success, `dial` has made
`N + 1` connect attempts and `N` sleeps, one after each failure, has stored the connection of
the last attempt in the client, and has returned a nil error; on the POSIX dialer as on the
Windows dialer. -/
theorem C5_retry_until_reachable (cc : Client) (errsU errsW : List GoError) (conn : Conn)
    (rest : List (Except GoError Conn))
    (hU : ∀ e ∈ errsU, strContains e.Error "connect: no such file or directory" = true)
    (hW : ∀ e ∈ errsW, strContains e.Error "The system cannot find the file specified." = true) :
    (cc.dial Platform.posix (errsU.map Except.error ++ Except.ok conn :: rest)).returned
        = some none ∧
      (cc.dial Platform.posix (errsU.map Except.error ++ Except.ok conn :: rest)).cc
        = { cc with conn := some conn } ∧
      (cc.dial Platform.posix (errsU.map Except.error ++ Except.ok conn :: rest)).events
        = (List.replicate errsU.length
            [DialEvent.connect "unix" ("/tmp/" ++ cc.Name ++ ".sock"),
             DialEvent.sleep (wrapInt64 (cc.retryTimer * Second))]).flatten
          ++ [DialEvent.connect "unix" ("/tmp/" ++ cc.Name ++ ".sock")] ∧
      ((cc.dial Platform.posix (errsU.map Except.error ++ Except.ok conn :: rest)).events.filter
        DialEvent.isConnect).length = errsU.length + 1 ∧
      ((cc.dial Platform.posix (errsU.map Except.error ++ Except.ok conn :: rest)).events.filter
        DialEvent.isSleep).length = errsU.length ∧
      (cc.dial Platform.windows (errsW.map Except.error ++ Except.ok conn :: rest)).returned
        = some none ∧
      (cc.dial Platform.windows (errsW.map Except.error ++ Except.ok conn :: rest)).cc
        = { cc with conn := some conn } ∧
      (cc.dial Platform.windows (errsW.map Except.error ++ Except.ok conn :: rest)).events
        = (List.replicate errsW.length
            [DialEvent.connect "pipe" ("\\\\.\\pipe\\" ++ cc.Name),
             DialEvent.sleep cc.retryTimer]).flatten
          ++ [DialEvent.connect "pipe" ("\\\\.\\pipe\\" ++ cc.Name)] ∧
      ((cc.dial Platform.windows (errsW.map Except.error ++ Except.ok conn :: rest)).events.filter
        DialEvent.isConnect).length = errsW.length + 1 ∧
      ((cc.dial Platform.windows (errsW.map Except.error ++ Except.ok conn :: rest)).events.filter
        DialEvent.isSleep).length = errsW.length := by
  have h1 := Client.dialUnix_retry cc errsU conn rest [] hU
  have h2 := Client.dialWindows_retry cc errsW conn rest [] hW
  simp only [Client.dial, h1, h2, List.nil_append]
  have c1 := count_retry_events errsU.length
    (DialEvent.connect "unix" ("/tmp/" ++ cc.Name ++ ".sock"))
    (DialEvent.sleep (wrapInt64 (cc.retryTimer * Second))) rfl rfl rfl rfl
  have c2 := count_retry_events errsW.length
    (DialEvent.connect "pipe" ("\\\\.\\pipe\\" ++ cc.Name))
    (DialEvent.sleep cc.retryTimer) rfl rfl rfl rfl
  exact ⟨trivial, trivial, trivial, c1.1, c1.2, trivial, trivial, trivial, c2.1, c2.2⟩

/-- C5 at two failures on the POSIX dialer and three on the Windows dialer. -/
theorem C5_retry_until_reachable_witness :
    (∀ e ∈ [errNoSuchFile, errNoSuchFile],
        strContains e.Error "connect: no such file or directory" = true) ∧
      (∀ e ∈ [errPipeNotFound, errPipeNotFound, errPipeNotFound],
        strContains e.Error "The system cannot find the file specified." = true) ∧
      ((Client.dial Platform.posix { Name := "svc", conn := none, retryTimer := 100000000 }
          ([errNoSuchFile, errNoSuchFile].map Except.error ++ Except.ok idleConn :: [])).returned
        = some none ∧
      (Client.dial Platform.posix { Name := "svc", conn := none, retryTimer := 100000000 }
          ([errNoSuchFile, errNoSuchFile].map Except.error ++ Except.ok idleConn :: [])).cc
        = { Name := "svc", conn := some idleConn, retryTimer := 100000000 } ∧
      (Client.dial Platform.posix { Name := "svc", conn := none, retryTimer := 100000000 }
          ([errNoSuchFile, errNoSuchFile].map Except.error ++ Except.ok idleConn :: [])).events
        = (List.replicate 2
            [DialEvent.connect "unix" ("/tmp/" ++ "svc" ++ ".sock"),
             DialEvent.sleep (wrapInt64 (100000000 * Second))]).flatten
          ++ [DialEvent.connect "unix" ("/tmp/" ++ "svc" ++ ".sock")] ∧
      ((Client.dial Platform.posix { Name := "svc", conn := none, retryTimer := 100000000 }
          ([errNoSuchFile, errNoSuchFile].map Except.error ++ Except.ok idleConn :: [])).events.filter
        DialEvent.isConnect).length = 2 + 1 ∧
      ((Client.dial Platform.posix { Name := "svc", conn := none, retryTimer := 100000000 }
          ([errNoSuchFile, errNoSuchFile].map Except.error ++ Except.ok idleConn :: [])).events.filter
        DialEvent.isSleep).length = 2 ∧
      (Client.dial Platform.windows { Name := "svc", conn := none, retryTimer := 100000000 }
          ([errPipeNotFound, errPipeNotFound, errPipeNotFound].map Except.error
            ++ Except.ok idleConn :: [])).returned
        = some none ∧
      (Client.dial Platform.windows { Name := "svc", conn := none, retryTimer := 100000000 }
          ([errPipeNotFound, errPipeNotFound, errPipeNotFound].map Except.error
            ++ Except.ok idleConn :: [])).cc
        = { Name := "svc", conn := some idleConn, retryTimer := 100000000 } ∧
      (Client.dial Platform.windows { Name := "svc", conn := none, retryTimer := 100000000 }
          ([errPipeNotFound, errPipeNotFound, errPipeNotFound].map Except.error
            ++ Except.ok idleConn :: [])).events
        = (List.replicate 3
            [DialEvent.connect "pipe" ("\\\\.\\pipe\\" ++ "svc"),
             DialEvent.sleep 100000000]).flatten
          ++ [DialEvent.connect "pipe" ("\\\\.\\pipe\\" ++ "svc")] ∧
      ((Client.dial Platform.windows { Name := "svc", conn := none, retryTimer := 100000000 }
          ([errPipeNotFound, errPipeNotFound, errPipeNotFound].map Except.error
            ++ Except.ok idleConn :: [])).events.filter
        DialEvent.isConnect).length = 3 + 1 ∧
      ((Client.dial Platform.windows { Name := "svc", conn := none, retryTimer := 100000000 }
          ([errPipeNotFound, errPipeNotFound, errPipeNotFound].map Except.error
            ++ Except.ok idleConn :: [])).events.filter
        DialEvent.isSleep).length = 3) :=
  ⟨by decide, by decide,
    C5_retry_until_reachable { Name := "svc", conn := none, retryTimer := 100000000 }
      [errNoSuchFile, errNoSuchFile] [errPipeNotFound, errPipeNotFound, errPipeNotFound]
      idleConn [] (by decide) (by decide)⟩

/-- C4 (the code at the failing input): `StartClient` configures a retry interval of 100 ms
(`100000000` ns). After one "not found" failure the POSIX dialer sleeps
`retryTimer * time.Second`, that is `100000000000000000` ns (`10^8` seconds), not 100 ms; the
Windows dialer, in the same situation, sleeps `retryTimer`, 100 ms. -/
theorem C4_posix_sleep_multiplies_by_second :
    wrapInt64 (100 * Millisecond) = 100000000 ∧
      (StartClient Platform.posix "svc" [Except.error errNoSuchFile, Except.ok idleConn]).events
        = [DialEvent.connect "unix" "/tmp/svc.sock", DialEvent.sleep 100000000000000000,
           DialEvent.connect "unix" "/tmp/svc.sock"] ∧
      (StartClient Platform.windows "svc" [Except.error errPipeNotFound, Except.ok idleConn]).events
        = [DialEvent.connect "pipe" "\\\\.\\pipe\\svc", DialEvent.sleep 100000000,
           DialEvent.connect "pipe" "\\\\.\\pipe\\svc"] := by
  refine ⟨by decide, by decide, by decide⟩

/-! ## Syntax check of the reference codec -/

theorem Scanner.reset_clean : Scanner.reset.Clean := by
  simp [Scanner.Clean, Scanner.reset]

theorem Scanner.error_outcome (s : Scanner) (c : Byte) (ctx : String) :
    Scanner.Outcome (s.error c ctx) := by
  simp [Scanner.Outcome, Scanner.error, Scanner.Failed]

theorem Scanner.goto_outcome (s : Scanner) (st : ScanStep) (h : s.Clean) (hst : st ≠ ScanStep.error) :
    Scanner.Outcome (s.goto st) := by
  simp_all [Scanner.Outcome, Scanner.goto, Scanner.Clean]

theorem Scanner.stay_outcome (s : Scanner) (h : s.Clean) : Scanner.Outcome (s, false) := by
  simp_all [Scanner.Outcome]

theorem Scanner.pushParseState_outcome (s : Scanner) (c : Byte) (p : ParseState)
    (h : s.Clean) : Scanner.Outcome (s.pushParseState c p) := by
  unfold Scanner.pushParseState
  dsimp only
  split
  · simp_all [Scanner.Outcome, Scanner.Clean]
  · exact Scanner.error_outcome _ _ _

theorem Scanner.popParseState_clean (s : Scanner) (h : s.err = none) : s.popParseState.Clean := by
  unfold Scanner.popParseState
  dsimp only
  split <;> simp_all [Scanner.Clean]

theorem Scanner.stateEndTop_outcome (s : Scanner) (c : Byte) (h : s.Clean) :
    Scanner.Outcome (s.stateEndTop c) := by
  unfold Scanner.stateEndTop
  split
  · simp [Scanner.Outcome, Scanner.error, Scanner.Failed]
  · exact Scanner.stay_outcome s h

theorem Scanner.stateEndValue_outcome (s : Scanner) (c : Byte) (h : s.err = none) :
    Scanner.Outcome (s.stateEndValue c) := by
  unfold Scanner.stateEndValue
  split
  · exact Scanner.stateEndTop_outcome _ _ (by simp [Scanner.Clean, h])
  · split
    · simp [Scanner.Outcome, Scanner.goto, Scanner.Clean, h]
    · split
      · split
        · simp [Scanner.Outcome, Scanner.Clean, h]
        · exact Scanner.error_outcome _ _ _
      · split
        · simp [Scanner.Outcome, Scanner.Clean, h]
        · split
          · exact Or.inl ⟨Scanner.popParseState_clean s h, rfl⟩
          · exact Scanner.error_outcome _ _ _
      · split
        · simp [Scanner.Outcome, Scanner.goto, Scanner.Clean, h]
        · split
          · exact Or.inl ⟨Scanner.popParseState_clean s h, rfl⟩
          · exact Scanner.error_outcome _ _ _

theorem Scanner.stateBeginValue_outcome (s : Scanner) (c : Byte) (h : s.Clean) :
    Scanner.Outcome (s.stateBeginValue c) := by
  unfold Scanner.stateBeginValue
  have hg : ∀ st, st ≠ ScanStep.error → Scanner.Outcome (s.goto st) :=
    fun st hst => Scanner.goto_outcome s st h hst
  repeat' split
  all_goals first
    | exact Scanner.stay_outcome s h
    | exact Scanner.error_outcome _ _ _
    | exact hg _ (by decide)
    | exact Scanner.pushParseState_outcome _ _ _ (by simp_all [Scanner.Clean])

theorem Scanner.stateBeginString_outcome (s : Scanner) (c : Byte) (h : s.Clean) :
    Scanner.Outcome (s.stateBeginString c) := by
  unfold Scanner.stateBeginString
  repeat' split
  all_goals first
    | exact Scanner.stay_outcome s h
    | exact Scanner.error_outcome _ _ _
    | exact Scanner.goto_outcome s _ h (by decide)

theorem Scanner.state0_outcome (s : Scanner) (c : Byte) (h : s.Clean) :
    Scanner.Outcome (s.state0 c) := by
  unfold Scanner.state0
  repeat' split
  all_goals first
    | exact Scanner.goto_outcome s _ h (by decide)
    | exact Scanner.stateEndValue_outcome s c h.1

theorem Scanner.stateESign_outcome (s : Scanner) (c : Byte) (h : s.Clean) :
    Scanner.Outcome (s.stateESign c) := by
  unfold Scanner.stateESign
  split
  · exact Scanner.goto_outcome s _ h (by decide)
  · exact Scanner.error_outcome _ _ _

theorem Scanner.expect_outcome (s : Scanner) (c want : Byte) (next : ScanStep) (ctx : String)
    (h : s.Clean) (hn : next ≠ ScanStep.error) : Scanner.Outcome (s.expect c want next ctx) := by
  unfold Scanner.expect
  split
  · exact Scanner.goto_outcome s _ h hn
  · exact Scanner.error_outcome _ _ _

theorem Scanner.expectHex_outcome (s : Scanner) (c : Byte) (next : ScanStep)
    (h : s.Clean) (hn : next ≠ ScanStep.error) : Scanner.Outcome (s.expectHex c next) := by
  unfold Scanner.expectHex
  split
  · exact Scanner.goto_outcome s _ h hn
  · exact Scanner.error_outcome _ _ _

theorem Scanner.stepByte_outcome (s : Scanner) (c : Byte) (h : s.Clean) :
    Scanner.Outcome (s.stepByte c) := by
  unfold Scanner.stepByte
  split
  all_goals (repeat' split)
  all_goals first
    | exact Scanner.stay_outcome s h
    | exact Scanner.error_outcome _ _ _
    | exact Scanner.goto_outcome s _ h (by decide)
    | exact Scanner.stateEndValue_outcome _ c h.1
    | exact Scanner.stateBeginValue_outcome s c h
    | exact Scanner.stateBeginString_outcome s c h
    | exact Scanner.stateEndTop_outcome s c h
    | exact Scanner.state0_outcome s c h
    | exact Scanner.stateESign_outcome s c h
    | exact Scanner.expect_outcome s c _ _ _ h (by decide)
    | exact Scanner.expectHex_outcome s c _ h (by decide)
    | exact absurd ‹s.step = ScanStep.error› h.2


theorem Scanner.error_failed (s : Scanner) (c : Byte) (ctx : String) :
    (s.error c ctx).1.Failed := by
  simp [Scanner.error, Scanner.Failed]

theorem Scanner.stateEndTop_nul (s : Scanner) : (s.stateEndTop 0).1.Failed := by
  simp [Scanner.stateEndTop, isSpace, Scanner.error, Scanner.Failed]

theorem Scanner.stateEndValue_nul (s : Scanner) : (s.stateEndValue 0).1.Failed := by
  unfold Scanner.stateEndValue
  split
  · exact Scanner.stateEndTop_nul _
  · rename_i ps rest _
    cases ps <;> simp [isSpace, Scanner.error, Scanner.Failed]

theorem Scanner.stateBeginValue_nul (s : Scanner) : (s.stateBeginValue 0).1.Failed := by
  simp [Scanner.stateBeginValue, isSpace, Scanner.error, Scanner.Failed]

theorem Scanner.stateBeginString_nul (s : Scanner) : (s.stateBeginString 0).1.Failed := by
  simp [Scanner.stateBeginString, isSpace, Scanner.error, Scanner.Failed]

theorem Scanner.state0_nul (s : Scanner) : (s.state0 0).1.Failed := by
  simp [Scanner.state0, Scanner.stateEndValue_nul]

theorem Scanner.stateESign_nul (s : Scanner) : (s.stateESign 0).1.Failed := by
  simp [Scanner.stateESign, isDigit, Scanner.error, Scanner.Failed]

theorem Scanner.expect_nul (s : Scanner) (want : Byte) (next : ScanStep) (ctx : String)
    (hw : want ≠ 0) : (s.expect 0 want next ctx).1.Failed := by
  have : (0 == want) = false := by simpa using hw.symm
  simp [Scanner.expect, this, Scanner.error, Scanner.Failed]

theorem Scanner.expectHex_nul (s : Scanner) (next : ScanStep) :
    (s.expectHex 0 next).1.Failed := by
  simp [Scanner.expectHex, isHexDigit, isDigit, Scanner.error, Scanner.Failed]

/-- The scanner accepts no NUL byte: from a clean state, the step on byte `0` fails. -/
theorem Scanner.stepByte_nul (s : Scanner) (h : s.Clean) : (s.stepByte 0).1.Failed := by
  unfold Scanner.stepByte
  split
  all_goals first
    | exact Scanner.stateEndValue_nul _
    | exact Scanner.stateBeginValue_nul _
    | exact Scanner.stateBeginString_nul _
    | exact Scanner.stateEndTop_nul _
    | exact Scanner.state0_nul _
    | exact Scanner.stateESign_nul _
    | exact Scanner.expect_nul _ _ _ _ (by decide)
    | exact Scanner.expectHex_nul _ _
    | exact absurd ‹s.step = ScanStep.error› h.2
    | simp [isSpace, isDigit, Scanner.stateBeginValue_nul, Scanner.stateBeginString_nul,
        Scanner.error_failed, Scanner.state0_nul, Scanner.stateESign_nul,
        Scanner.stateEndValue_nul]

theorem Scanner.stepByte_failed (s : Scanner) (c : Byte) (h : s.Failed) :
    s.stepByte c = (s, true) := by
  unfold Scanner.stepByte
  rw [h.1]

/-- Once the bytes seen so far have failed the scanner, or if a NUL byte is still to come,
the scan ends in a failed scanner. -/
theorem Scanner.scanBytes_failed (cs : List Byte) (s : Scanner)
    (h : s.Failed ∨ (s.Clean ∧ 0 ∈ cs)) : (s.scanBytes cs).1.Failed := by
  induction cs generalizing s with
  | nil =>
    rcases h with h | ⟨_, h⟩
    · exact h
    · simp at h
  | cons c cs ih =>
    unfold Scanner.scanBytes
    dsimp only
    rcases h with h | ⟨hc, hmem⟩
    · rw [Scanner.stepByte_failed s c h]
      exact h
    · have ho := Scanner.stepByte_outcome s c hc
      by_cases hr : (s.stepByte c).2 = true
      · rw [if_pos hr]
        rcases ho with ⟨_, h2⟩ | hf
        · rw [h2] at hr
          exact absurd hr (by simp)
        · exact hf
      · rw [if_neg hr]
        apply ih
        rcases List.mem_cons.mp hmem with h0 | h0
        · left
          rw [← h0]
          exact Scanner.stepByte_nul s hc
        · rcases ho with ⟨h1, _⟩ | hf
          · exact Or.inr ⟨h1, h0⟩
          · exact Or.inl hf

/-- The syntax check rejects every input that contains a NUL byte, with a codec error. -/
theorem checkValid_nul (data : List Byte) (h : 0 ∈ data) :
    ∃ m, checkValid data = some (GoError.json m) := by
  have hf := Scanner.scanBytes_failed data Scanner.reset (Or.inr ⟨Scanner.reset_clean, h⟩)
  obtain ⟨_, m, hm⟩ := hf
  refine ⟨m, ?_⟩
  unfold checkValid
  dsimp only
  split
  · exact hm
  · simp [Scanner.eof, hm]

/-! ## Reads on the connection -/

theorem Conn.Read_full (conn : Conn) (buf p c0 : List Byte) (cs : List (List Byte))
    (hin : conn.inbound = (p ++ c0) :: cs) (hlen : buf.length = p.length) (hp : p ≠ []) :
    conn.Read buf
      = ({ conn with ops := conn.ops ++ [ConnOp.read buf.length],
                     inbound := if c0 = [] then cs else c0 :: cs }, p, p.length, none) := by
  have hpl : p.length ≠ 0 := fun h => hp (List.length_eq_zero.mp h)
  unfold Conn.Read
  simp only [hin, hlen, hpl, if_false]
  by_cases hc : c0 = []
  · subst hc
    simp
    omega
  · have : ¬ (p.length + c0.length ≤ p.length) := by
      have := List.length_pos.mpr hc
      omega
    simp [hc, this, List.take_append_eq_append_take, List.drop_append_eq_append_drop, ← hlen]

theorem Conn.Read_empty (conn : Conn) :
    conn.Read [] = ({ conn with ops := conn.ops ++ [ConnOp.read 0] }, [], 0, none) := by
  simp [Conn.Read]

/-- A read into a non-empty buffer of zeros from a stream that holds fewer bytes than the
buffer: the end-of-stream error, or a buffer that still ends in a zero byte. -/
theorem Conn.Read_short (conn : Conn) (L : Nat) (hL : 0 < L)
    (hk : conn.inbound.flatten.length < L) :
    (conn.Read (List.replicate L 0)).2.2.2 = some conn.atEnd ∨
      ((conn.Read (List.replicate L 0)).2.2.2 = none ∧
        0 ∈ (conn.Read (List.replicate L 0)).2.1) := by
  unfold Conn.Read
  have h0 : ¬ (L = 0) := by omega
  rcases hin : conn.inbound with _ | ⟨h, t⟩
  · simp [h0]
  · right
    rw [hin] at hk
    simp only [List.flatten_cons, List.length_append] at hk
    have hh : h.length < L := by omega
    simp only [List.length_replicate, h0, if_false, true_and]
    rw [List.mem_append]
    right
    simp only [List.drop_replicate]
    apply List.mem_replicate.mpr
    refine ⟨?_, rfl⟩
    have : min L h.length = h.length := Nat.min_eq_right (by omega)
    omega


theorem bytesToInt_intToBytes_nat (L : Nat) (hL : L ≤ 2 ^ 32 - 1) :
    bytesToInt (intToBytes (Int.ofNat L)) = (Int.ofNat L, none) := by
  rw [bytesToInt_intToBytes]
  have : (Int.ofNat L) % 2 ^ 32 = Int.ofNat L :=
    Int.emod_eq_of_lt (Int.ofNat_nonneg L) (by simp; omega)
  rw [this]

theorem intToBytes_ne_nil (n : Int) : intToBytes n ≠ [] := by
  simp [intToBytes, putUint32]

/-- When the head chunk of the inbound stream holds a whole frame, `read` takes the frame off
the stream in two `Read` calls and returns what the codec makes of the payload. -/
theorem Client.read_frame {Req Res : Type} (codec : Codec Req Res) (name : String) (timer : Int)
    (conn : Conn) (payload extra : List Byte) (rest : List (List Byte))
    (hL : payload.length ≤ 2 ^ 32 - 1)
    (hin : conn.inbound = (intToBytes (Int.ofNat payload.length) ++ payload ++ extra) :: rest) :
    Client.read codec { Name := name, conn := some conn, retryTimer := timer }
      = some ({ Name := name,
                conn := some { conn with
                  ops := conn.ops ++ [ConnOp.read 4, ConnOp.read payload.length],
                  inbound := if extra = [] then rest else extra :: rest },
                retryTimer := timer },
              (codec.Unmarshal payload codec.zero).1, (codec.Unmarshal payload codec.zero).2) := by
  have hin2 : conn.inbound
      = (intToBytes (Int.ofNat payload.length) ++ (payload ++ extra)) :: rest := by
    rw [hin, List.append_assoc]
  have h1 := Conn.Read_full conn (List.replicate 4 0) (intToBytes (Int.ofNat payload.length))
    (payload ++ extra) rest hin2 rfl (intToBytes_ne_nil _)
  simp only [Client.read, h1, bytesToInt_intToBytes_nat payload.length hL]
  by_cases hp : payload = []
  · subst hp
    simp [Conn.Read_empty]
  · have h2 := Conn.Read_full
      { conn with ops := conn.ops ++ [ConnOp.read 4],
                  inbound := (payload ++ extra) :: rest }
      (List.replicate payload.length 0) payload extra rest rfl (by simp) hp
    simp only [List.length_replicate] at h2
    simp [hp, h2]


/-- When the first `Read` is filled with the whole 4-byte length `L` and fewer than `L`
payload bytes follow before the end of the stream, `read` returns a non-nil error with the
zero response: the unfilled tail of the payload buffer is zero bytes, which the syntax check
of `json.Unmarshal` rejects. -/
theorem Client.read_short_payload_fails {Req Res : Type} (codec : Codec Req Res)
    (hsyn : ∀ data res e, checkValid data = some e → codec.Unmarshal data res = (res, some e))
    (name : String) (timer : Int) (L : Nat) (c0 : List Byte) (cs : List (List Byte))
    (out : List Byte) (wl : Option (Nat × GoError)) (ops : List ConnOp)
    (hL : L ≤ 2 ^ 32 - 1) (hk : c0.length + cs.flatten.length < L) :
    ∃ cc' e,
      Client.read codec
        { Name := name,
          conn := some { inbound := (intToBytes (Int.ofNat L) ++ c0) :: cs, atEnd := GoError.EOF,
                         outbound := out, writeLimit := wl, ops := ops },
          retryTimer := timer }
        = some (cc', codec.zero, some e) := by
  have h1 := Conn.Read_full
    { inbound := (intToBytes (Int.ofNat L) ++ c0) :: cs, atEnd := GoError.EOF,
      outbound := out, writeLimit := wl, ops := ops }
    (List.replicate 4 0) (intToBytes (Int.ofNat L)) c0 cs rfl rfl (intToBytes_ne_nil _)
  simp only [Client.read, h1, bytesToInt_intToBytes_nat L hL]
  have hflat : (if c0 = [] then cs else c0 :: cs).flatten.length < L := by
    by_cases hc : c0 = []
    · subst hc
      simpa using hk
    · simp only [hc, if_false, List.flatten_cons, List.length_append]
      exact hk
  have hs := Conn.Read_short
    { inbound := if c0 = [] then cs else c0 :: cs, atEnd := GoError.EOF, outbound := out,
      writeLimit := wl, ops := ops ++ [ConnOp.read (List.replicate 4 0).length] }
    L (by omega) hflat
  have hn : (Int.ofNat L).toNat = L := rfl
  rw [hn]
  rcases hr : Conn.Read
    { inbound := if c0 = [] then cs else c0 :: cs, atEnd := GoError.EOF, outbound := out,
      writeLimit := wl, ops := ops ++ [ConnOp.read (List.replicate 4 0).length] }
    (List.replicate L 0) with ⟨c2, m2, n2, e2⟩
  rw [hr] at hs
  rcases e2 with _ | e2
  · rcases hs with hs | ⟨_, hs⟩
    · simp at hs
    · obtain ⟨m, hm⟩ := checkValid_nul m2 hs
      have hu := hsyn m2 codec.zero _ hm
      exact ⟨{ Name := name, conn := some c2, retryTimer := timer }, GoError.json m,
        by simp [hu]⟩
  · exact ⟨{ Name := name, conn := some c2, retryTimer := timer }, e2, rfl⟩

/-! ## Frames that fit the write buffer -/

theorem Writer.writeLoop_fits (b : Writer) (p : List Byte) (nn : Nat)
    (hfit : p.length ≤ b.Available) : b.writeLoop p nn = (b, p, nn) := by
  rw [Writer.writeLoop, if_neg]
  intro h
  omega

theorem Writer.Write_fits (b : Writer) (p : List Byte) (he : b.err = none)
    (hfit : p.length ≤ b.Available) :
    b.Write p = ({ b with buf := b.buf ++ p }, p.length, none) := by
  unfold Writer.Write
  rw [Writer.writeLoop_fits b p 0 hfit]
  simp [he, Nat.min_eq_right hfit]

/-- A frame that fits the buffer of the writer reaches the transport in one `Write` call. -/
theorem writeFrame_small (conn : Conn) (data : List Byte) (hw : conn.writeLimit = none)
    (hlen : 4 + data.length ≤ defaultBufSize) :
    writeFrame conn data
      = ({ buf := [], err := none,
           wr := { conn with
             outbound := conn.outbound ++ (intToBytes (Int.ofNat data.length) ++ data),
             ops := conn.ops ++ [ConnOp.write (intToBytes (Int.ofNat data.length) ++ data)] } },
         none) := by
  have h1 := Writer.Write_fits (NewWriter conn) (intToBytes (Int.ofNat data.length)) rfl
    (by simp [Writer.Available, NewWriter, intToBytes_length, defaultBufSize])
  have h2 := Writer.Write_fits
    { NewWriter conn with buf := (NewWriter conn).buf ++ intToBytes (Int.ofNat data.length) }
    data rfl (by
      simp only [Writer.Available, NewWriter, List.nil_append, intToBytes_length]
      omega)
  unfold writeFrame
  simp only [h1, h2]
  simp only [NewWriter, List.nil_append, Writer.Flush]
  have hne : ¬ ((intToBytes (Int.ofNat data.length) ++ data).length = 0) := by
    simp [intToBytes_length]
  simp only [hne, if_false, Conn.Write_noLimit _ _ hw]
  simp

theorem jsonCodec_syntax_first (data : List Byte) (res : ipcResponse) (e : GoError)
    (h : checkValid data = some e) : jsonCodec.Unmarshal data res = (res, some e) := by
  simp [jsonCodec, unmarshalStringField, h]

theorem Client.write_small {Req Res : Type} (codec : Codec Req Res) (name : String) (timer : Int)
    (conn : Conn) (req : Req) (d : List Byte) (hm : codec.Marshal req = (d, none))
    (hw : conn.writeLimit = none) (hlen : 4 + d.length ≤ defaultBufSize) :
    Client.write codec { Name := name, conn := some conn, retryTimer := timer } req
      = some ({ Name := name,
                conn := some { conn with outbound := conn.outbound ++ frameOf d,
                                         ops := conn.ops ++ [ConnOp.write (frameOf d)] },
                retryTimer := timer }, none) := by
  rw [Client.write_of_marshal codec name timer conn req d hm, writeFrame_small conn d hw hlen,
    intToBytes_eq_spec d.length (by simp [defaultBufSize] at hlen; omega)]
  rfl

theorem write_bob (conn : Conn) (hw : conn.writeLimit = none) :
    Client.write jsonCodec (clientOn conn) reqBob
      = some (clientOn { conn with
          outbound := conn.outbound ++ ([0, 0, 0, 14] ++ reqBobJSON),
          ops := conn.ops ++ [ConnOp.write ([0, 0, 0, 14] ++ reqBobJSON)] },
        none) := by
  have hm : jsonCodec.Marshal reqBob = (reqBobJSON, none) := by decide
  have hf : frameOf reqBobJSON = [0, 0, 0, 14] ++ reqBobJSON := by decide
  unfold clientOn
  rw [Client.write_small jsonCodec _ _ conn reqBob _ hm hw (by decide), hf]

/-! ## The claims on frames -/

/-- C9 (as stated, refuted): `intToBytes` does not fail on an out-of-range length. At
`n = 2^32` and at `n = -1` it returns 4 bytes, the encodings of `0` and of `2^32 - 1`, and
the bytes decode to a value different from `n`. -/
theorem C9_no_range_check_counterexample :
    intToBytes (2 ^ 32) = [0, 0, 0, 0] ∧ (intToBytes (2 ^ 32)).length = 4 ∧
      bytesToInt (intToBytes (2 ^ 32)) = (0, none) ∧
      intToBytes (-1) = [255, 255, 255, 255] ∧
      bytesToInt (intToBytes (-1)) = (4294967295, none) := by
  refine ⟨by decide, rfl, by decide, by decide, by decide⟩

/-- C9 (amended): `intToBytes` has no range check. For every integer `n`, in range or not,
it returns 4 bytes, and these decode to `n` reduced modulo `2^32`, which is `n` itself exactly
when `0 ≤ n ≤ 2^32 - 1`. Over a transport whose writes succeed, `write` emits these 4 bytes
for `n = len(data)` in front of the payload, whatever the length of the payload. -/
theorem C9_intToBytes_wraps (n : Int) (conn : Conn) (data : List Byte) :
    (intToBytes n).length = 4 ∧ bytesToInt (intToBytes n) = (n % 2 ^ 32, none) ∧
      (n % 2 ^ 32 = n ↔ 0 ≤ n ∧ n ≤ 2 ^ 32 - 1) ∧
      (writeFrame { conn with writeLimit := none } data).2 = none ∧
      (writeFrame { conn with writeLimit := none } data).1.wr.outbound
        = conn.outbound ++ intToBytes (Int.ofNat data.length) ++ data := by
  have hw := writeFrame_unlimited { conn with writeLimit := none } data rfl
  refine ⟨rfl, bytesToInt_intToBytes n, ?_, hw.1, hw.2.2.2⟩
  constructor
  · intro h
    omega
  · intro h
    exact Int.emod_eq_of_lt h.1 (by omega)

/-- C10 (as stated, refuted): for `ipcRequest{Name: "bob"}` the bytes `Send` writes are
`00 00 00 0e` followed by the 14 bytes of the JSON text, not `00 00 00 0f` followed by 15
bytes. -/
theorem C10_request_frame_has_14_bytes :
    (Client.Send jsonCodec (clientOn (connWith [respHelloFrame])) reqBob).map
        (fun r => r.1.conn.map (fun c => c.outbound))
      = some (some ([0, 0, 0, 0x0e] ++ reqBobJSON)) ∧
    reqBobJSON.length = 14 ∧
    ¬ (∃ payload : List Byte, payload.length = 15 ∧
        (Client.Send jsonCodec (clientOn (connWith [respHelloFrame])) reqBob).map
            (fun r => r.1.conn.map (fun c => c.outbound))
          = some (some ([0, 0, 0, 0x0f] ++ payload))) := by
  have hw := write_bob (connWith [respHelloFrame]) rfl
  have hs : (Client.Send jsonCodec (clientOn (connWith [respHelloFrame])) reqBob).map
        (fun r => r.1.conn.map (fun c => c.outbound))
      = some (some ([0, 0, 0, 0x0e] ++ reqBobJSON)) := by
    simp only [Client.Send, hw]
    decide
  refine ⟨hs, by decide, ?_⟩
  rintro ⟨payload, _, h⟩
  rw [hs] at h
  simp at h

/-- C10 (amended): for `ipcRequest{Name: "bob"}` and the reference JSON codec, `Send` makes
one `Write` call on the connection, whose bytes are `00 00 00 0e` followed by the 14 bytes
`{"name":"bob"}`, then reads once: when the peer's frame for `{"message":"hello bob"}` is
available whole, two `Read` calls take its 4-byte length and its 23-byte payload, and `Send`
returns `ipcResponse{Message: "hello bob"}` with a nil error. -/
theorem C10_send_bob_scenario :
    Client.Send jsonCodec (clientOn (connWith [respHelloFrame])) reqBob
      = some (clientOn
          { inbound := [], atEnd := GoError.EOF,
            outbound := [0, 0, 0, 0x0e] ++ reqBobJSON,
            writeLimit := none,
            ops := [ConnOp.write ([0, 0, 0, 0x0e] ++ reqBobJSON), ConnOp.read 4, ConnOp.read 23] },
          respHello, none) ∧
      reqBobJSON.length = 14 ∧
      respHelloFrame = [0, 0, 0, 23] ++ goString "\x7b\"message\":\"hello bob\"\x7d" := by
  have hw := write_bob (connWith [respHelloFrame]) rfl
  refine ⟨?_, by decide, by decide⟩
  simp only [Client.Send, hw]
  decide

set_option maxRecDepth 100000 in
/-- C3 (the code at the failing input): on a stream that declares 100 payload bytes and
closes after 10, the second `Read` returns 10 bytes and a nil error, its count is discarded,
and `read` returns the syntax error that `json.Unmarshal` finds in the buffer of 10 received
bytes and 90 zero bytes: a codec error, not an error of a separate kind. On a stream whose
length bytes `00 00 01 20` (288) arrive as 3 bytes and then 1 byte with 255 payload bytes
before the peer closes, `read` takes the length for 256, fills the payload buffer with the
fourth length byte and the 255 payload bytes, and returns a decoded value with a nil error. -/
theorem C3_truncated_frame_gives_codec_error :
    truncatedFrame.length = 4 + 10 ∧
      Client.read jsonCodec (clientOn (connWith [truncatedFrame]))
        = some (clientOn { inbound := [], atEnd := GoError.EOF, outbound := [],
                           writeLimit := none, ops := [ConnOp.read 4, ConnOp.read 100] },
            jsonCodec.zero,
            some (GoError.json "invalid character \x27\\x00\x27 after object key")) ∧
      (GoError.json "invalid character \x27\\x00\x27 after object key").isCodec = true ∧
      (GoError.json "invalid character \x27\\x00\x27 after object key").isTransport = false ∧
      shortPayload.length = 255 ∧
      Client.read jsonCodec (clientOn (connWith [[0x00, 0x00, 0x01], 0x20 :: shortPayload]))
        = some (clientOn { inbound := [], atEnd := GoError.EOF, outbound := [],
                           writeLimit := none, ops := [ConnOp.read 4, ConnOp.read 256] },
            { Message := goString "x" }, none) := by
  refine ⟨by decide, by decide, rfl, rfl, by decide, by decide⟩

theorem write_two_frames :
    (Client.write echoCodec (clientOn (connWith [])) reqA).bind
        (fun r => Client.write echoCodec r.1 reqB)
      = some (clientOn
          { inbound := [], atEnd := GoError.EOF, outbound := twoFrames, writeLimit := none,
            ops := [ConnOp.write (frameOf (echoCodec.Marshal reqA).1),
                    ConnOp.write (frameOf (echoCodec.Marshal reqB).1)] }, none) := by
  unfold clientOn
  rw [Client.write_small echoCodec _ _ _ reqA _ rfl rfl (by decide)]
  simp only [Option.bind]
  rw [Client.write_small echoCodec _ _ _ reqB _ rfl rfl (by decide)]
  rfl

/-- C2 (the code at the failing input): two calls of `write` leave the frames of two messages
back to back on the stream. Offered to `read` one byte per `Read` call, the first `read` takes
one byte, decodes the length `0`, and returns the zero value with the codec's error for an
empty payload; so does the second. Neither returns the message that was written. -/
theorem C2_one_byte_reads_lose_the_frames :
    (Client.write echoCodec (clientOn (connWith [])) reqA).bind
        (fun r => (Client.write echoCodec r.1 reqB).map
          (fun r2 => (r2.1.conn.map (fun c => c.outbound), r2.2)))
      = some (some twoFrames, none) ∧
    returned (Client.read echoCodec (clientOn (connWith (byteWise twoFrames))))
        = some (echoCodec.zero, some (GoError.json "unexpected end of JSON input")) ∧
      returned ((Client.read echoCodec (clientOn (connWith (byteWise twoFrames)))).bind
          (fun r => Client.read echoCodec r.1))
        = some (echoCodec.zero, some (GoError.json "unexpected end of JSON input")) ∧
      returned (Client.read echoCodec (clientOn (connWith (byteWise twoFrames))))
        ≠ some (reqA, none) ∧
      returned ((Client.read echoCodec (clientOn (connWith (byteWise twoFrames)))).bind
          (fun r => Client.read echoCodec r.1))
        ≠ some (reqB, none) := by
  refine ⟨?_, by decide, by decide, by decide, by decide⟩
  unfold clientOn
  rw [Client.write_small echoCodec _ _ _ reqA _ rfl rfl (by decide)]
  simp only [Option.bind]
  rw [Client.write_small echoCodec _ _ _ reqB _ rfl rfl (by decide)]
  rfl

/-- The same two frames, available whole: two calls of `read` return the two messages. -/
theorem read_two_frames_delivered_whole :
    returned (Client.read echoCodec (clientOn (connWith [twoFrames]))) = some (reqA, none) ∧
      returned ((Client.read echoCodec (clientOn (connWith [twoFrames]))).bind
          (fun r => Client.read echoCodec r.1)) = some (reqB, none) := by
  refine ⟨by decide, by decide⟩

/-- C8 at the request of the example program on a fresh connection. -/
theorem C8_wire_format_witness :
    jsonCodec.Marshal reqBob = (reqBobJSON, none) ∧ reqBobJSON.length ≤ 2 ^ 32 - 1 ∧
      idleConn.writeLimit = none ∧
      ∃ conn' : Conn,
        Client.write jsonCodec { Name := "svc", conn := some idleConn, retryTimer := 100000000 }
            reqBob
          = some ({ Name := "svc", conn := some conn', retryTimer := 100000000 }, none) ∧
        conn'.outbound = idleConn.outbound ++ specBigEndian32 reqBobJSON.length ++ reqBobJSON ∧
        (writeFrame idleConn reqBobJSON).1.wr = conn' ∧ (writeFrame idleConn reqBobJSON).1.buf = [] :=
  ⟨by decide, by decide, rfl,
    C8_wire_format jsonCodec "svc" 100000000 idleConn reqBob reqBobJSON (by decide) (by decide)
      rfl⟩

/-- A write that fails: the transport accepts 3 bytes of the frame and then breaks. `Send`
returns the zero response with that error; the peer's frame is still unread. -/
theorem send_on_broken_transport :
    Client.Send jsonCodec
        (clientOn { inbound := [respHelloFrame], atEnd := GoError.EOF, outbound := [],
                    writeLimit := some (3, GoError.net "write: broken pipe"), ops := [] })
        reqBob
      = some (clientOn { inbound := [respHelloFrame], atEnd := GoError.EOF,
                         outbound := [0, 0, 0],
                         writeLimit := some (0, GoError.net "write: broken pipe"),
                         ops := [ConnOp.write ([0, 0, 0, 14] ++ reqBobJSON)] },
          jsonCodec.zero, some (GoError.net "write: broken pipe")) := by
  have hm : jsonCodec.Marshal reqBob = (reqBobJSON, none) := by decide
  have h1 := Writer.Write_fits
    (NewWriter { inbound := [respHelloFrame], atEnd := GoError.EOF, outbound := [],
                 writeLimit := some (3, GoError.net "write: broken pipe"), ops := [] })
    (intToBytes (Int.ofNat reqBobJSON.length)) rfl (by decide)
  have h2 := Writer.Write_fits
    { NewWriter { inbound := [respHelloFrame], atEnd := GoError.EOF, outbound := [],
                  writeLimit := some (3, GoError.net "write: broken pipe"), ops := [] } with
      buf := [] ++ intToBytes (Int.ofNat reqBobJSON.length) }
    reqBobJSON rfl (by decide)
  unfold clientOn
  simp only [Client.Send, Client.write_of_marshal jsonCodec _ _ _ reqBob _ hm, writeFrame, h1]
  simp only [NewWriter] at h2 ⊢
  simp only [h2]
  decide

end GoIpc
